import Mathlib

/-!
Verification of the selector-expression compiler and evaluator
(`SelectorExpression.cpp`): a JMS/SQL-92 style boolean predicate language
compiled to an AST and evaluated under three-valued logic.

The development shallowly embeds the source file: the tokeniser, the typed
value model and the environment are external collaborators and are modelled
from the specification; every parser production, AST node evaluator and
literal compiler is translated from the C++ source.  Machine integers are
modelled as `Nat`/`Int` with explicit two's-complement reduction where the
C++ converts or overflows.
-/

namespace Selector

/-- Tri-state boolean (`BoolOrNone` in the external value model): the three
values `BN_FALSE`, `BN_TRUE`, `BN_UNKNOWN` of SQL-92 three-valued logic.
Modelled from the spec: external collaborator. -/
inductive BoolOrNone where
  | BN_FALSE
  | BN_TRUE
  | BN_UNKNOWN
deriving DecidableEq, Repr

/-- Construction of a tri-state value from a native boolean, as in the
source's `BoolOrNone(bool)` conversions. -/
def BoolOrNone.ofBool (b : Bool) : BoolOrNone :=
  if b then .BN_TRUE else .BN_FALSE

/-- Modelled from the spec: the external typed `Value` model (tagged union of
boolean / string / exact 64-bit signed integer / approximate floating point /
unknown).  Approximate (`double`) values are idealised as rationals; none of
the verified claims depends on floating-point rounding. -/
inductive Value where
  | VBool (b : Bool)
  | VString (s : String)
  | VInt (i : Int)
  | VFloat (q : Rat)
  | VUnknown
deriving DecidableEq, Repr

/-- Modelled from the spec: predicate `unknown(v)` of the external value
model — true exactly on the unknown value. -/
def unknown : Value → Bool
  | .VUnknown => true
  | _ => false

/-- Modelled from the spec: predicate `numeric(v)` — true on exact and
approximate numeric values. -/
def numeric : Value → Bool
  | .VInt _ => true
  | .VFloat _ => true
  | _ => false

/-- Modelled from the spec: predicate `sameType(v1, v2)` — same tag of the
tagged union. -/
def sameType : Value → Value → Bool
  | .VBool _, .VBool _ => true
  | .VString _, .VString _ => true
  | .VInt _, .VInt _ => true
  | .VFloat _, .VFloat _ => true
  | .VUnknown, .VUnknown => true
  | _, _ => false

/-- Modelled from the spec: the external `operator==` over values — defined
for same-type pairs and numeric pairs (with promotion of exact to
approximate); comparisons across incompatible types yield `false`. -/
def valueEq : Value → Value → Bool
  | .VBool a, .VBool b => a == b
  | .VString a, .VString b => a == b
  | .VInt a, .VInt b => a == b
  | .VInt a, .VFloat b => (a : Rat) == b
  | .VFloat a, .VInt b => a == (b : Rat)
  | .VFloat a, .VFloat b => a == b
  | _, _ => false

/-- Modelled from the spec: the external `operator<=` over values (total
order on compatible pairs, `false` on incompatible pairs; `false < true` for
booleans, lexicographic order for strings, numeric promotion otherwise). -/
def valueLe : Value → Value → Bool
  | .VBool a, .VBool b => !a || b
  | .VString a, .VString b => decide (a ≤ b)
  | .VInt a, .VInt b => decide (a ≤ b)
  | .VInt a, .VFloat b => decide ((a : Rat) ≤ b)
  | .VFloat a, .VInt b => decide (a ≤ (b : Rat))
  | .VFloat a, .VFloat b => decide (a ≤ b)
  | _, _ => false

/-- Modelled from the spec: the external `operator>=` over values. -/
def valueGe : Value → Value → Bool
  | .VBool a, .VBool b => a || !b
  | .VString a, .VString b => decide (b ≤ a)
  | .VInt a, .VInt b => decide (b ≤ a)
  | .VInt a, .VFloat b => decide (b ≤ (a : Rat))
  | .VFloat a, .VInt b => decide ((b : Rat) ≤ a)
  | .VFloat a, .VFloat b => decide (b ≤ a)
  | _, _ => false

/-- Modelled from the spec: the external `operator<` over values. -/
def valueLt (a b : Value) : Bool := valueLe a b && !valueEq a b

/-- Modelled from the spec: the external `operator>` over values. -/
def valueGt (a b : Value) : Bool := valueGe a b && !valueEq a b

/-- Modelled from the spec: the external `operator!=` over values. -/
def valueNe (a b : Value) : Bool := !valueEq a b

/-- Two's-complement reduction of a natural number into the signed 64-bit
range, modelling C++ conversion of `uint64_t` to `int64_t`. -/
def toInt64 (n : Nat) : Int :=
  let m : Nat := n % 2 ^ 64
  if m < 2 ^ 63 then (m : Int) else (m : Int) - 2 ^ 64

/-- Two's-complement reduction of an integer into the signed 64-bit range,
modelling wrap-around of `int64_t` arithmetic. -/
def int64OfInt (z : Int) : Int :=
  let m := z % (2 ^ 64 : Int)
  if m < 2 ^ 63 then m else m - 2 ^ 64

/-- Modelled from the spec: unary negation on values (exact integers wrap in
64-bit two's complement; non-numeric operands give the unknown value). -/
def valueNeg : Value → Value
  | .VInt i => .VInt (int64OfInt (-i))
  | .VFloat q => .VFloat (-q)
  | _ => .VUnknown

/-- Modelled from the spec: the per-message property environment, a lookup
from identifier name to typed value, yielding the unknown value when the
property is absent. -/
def Env : Type := String → Value

/-- Environment lookup, as `Env::value(identifier)` in the source. -/
def Env.value (env : Env) (identifier : String) : Value := env identifier

/-- The environment with no properties: every lookup is unknown. -/
def emptyEnv : Env := fun _ => .VUnknown

/-! ### Regular-expression matching (model of `std::regex`)

`LikeExpression` compiles the LIKE pattern to an ECMAScript regular
expression and matches it with `std::regex_match` (whole-string match).
The translator only ever emits: the anchors `^`/`$`, backslash-escaped
literals, the classes `[]]` and `[-]`, `.`, `.*`, and plain characters.
We model `std::regex` on exactly this fragment. -/

/-- One item of the regular-expression fragment emitted by the LIKE
translator: a literal character, "any character" (`.`), or "any sequence"
(`.*`).  Modelled from the spec: `std::regex` is external. -/
inductive RItem where
  | lit (c : Char)
  | anyc
  | anyStar
deriving DecidableEq, Repr

/-- Parse the body of an emitted regular expression (between the anchors)
into items; `none` on any construct the LIKE translator never emits.
Modelled from the spec: `std::regex` is external. -/
def parseRegexItems : List Char → Option (List RItem)
  | [] => some []
  | '\\' :: c :: rest => (parseRegexItems rest).map (fun is => .lit c :: is)
  | '\\' :: [] => none
  | '[' :: ']' :: ']' :: rest => (parseRegexItems rest).map (fun is => .lit ']' :: is)
  | '[' :: '-' :: ']' :: rest => (parseRegexItems rest).map (fun is => .lit '-' :: is)
  | '[' :: _ => none
  | '.' :: '*' :: rest => (parseRegexItems rest).map (fun is => .anyStar :: is)
  | '.' :: rest => (parseRegexItems rest).map (fun is => .anyc :: is)
  | '*' :: _ => none
  | '^' :: _ => none
  | '$' :: _ => none
  | c :: rest => (parseRegexItems rest).map (fun is => .lit c :: is)

/-- Whole-string matching of an item sequence: a literal consumes its
character, `.` consumes any one character, and `.*` consumes any prefix (all
suffixes of the subject are tried for the remaining items).  Modelled from
the spec: `std::regex` is external. -/
def reMatch : List RItem → List Char → Bool
  | [], s => s.isEmpty
  | .lit c :: is, s =>
    match s with
    | [] => false
    | x :: xs => c == x && reMatch is xs
  | .anyc :: is, s =>
    match s with
    | [] => false
    | _ :: xs => reMatch is xs
  | .anyStar :: is, s => s.tails.any (fun t => reMatch is t)

/-- `std::regex_match(s, std::regex(re))` for a regex string of the emitted
fragment: the string must be anchored `^...$` and its body must parse; the
whole subject string has to match.  Modelled from the spec: `std::regex` is
external. -/
def regexMatchStr (re : String) (s : String) : Bool :=
  match re.data with
  | '^' :: rest =>
    if rest.getLast? = some '$' then
      match parseRegexItems rest.dropLast with
      | some items => reMatch items s.data
      | none => false
    else false
  | _ => false

/-! ### The LIKE-pattern translator (`LikeExpression::toRegex`) -/

/-- The character-by-character translation loop of
`LikeExpression::toRegex`: `e` is the escape character (the C++ uses the NUL
character `'\x00'` when no escape was given), the boolean argument is the
`doEscape` flag. -/
def toRegexAux (e : Char) : List Char → Bool → List Char
  | [], _ => []
  | i :: rest, doEscape =>
    if e ≠ '\x00' ∧ i = e then toRegexAux e rest true
    else
      (match i with
       | '%' => if doEscape then ['%'] else ['.', '*']
       | '_' => if doEscape then ['_'] else ['.']
       | ']' => ['[', ']', ']']
       | '-' => ['[', '-', ']']
       | c =>
         if c = '\\' ∨ c = '^' ∨ c = '$' ∨ c = '.' ∨ c = '*' ∨ c = '[' then ['\\', c]
         else [c]) ++ toRegexAux e rest false

/-- `LikeExpression::toRegex`: translate a SQL LIKE pattern (with optional
escape string) into an anchored regular expression.  An escape string longer
than one character throws `std::logic_error("Internal error")` in the C++,
modelled here as `none`. -/
def LikeExpression.toRegex (s : String) (escape : String) : Option String :=
  if escape.length > 1 then none
  else
    let e : Char := if escape.length = 1 then escape.data.headD '\x00' else '\x00'
    some ⟨'^' :: toRegexAux e s.data false ++ ['$']⟩

/-! ### The expression AST

The C++ uses a class hierarchy (`ValueExpression` with `BoolExpression` as a
subclass); here it is one closed inductive with a constructor per concrete
node class.  The stateless operator singletons (`eqOp`, `notOp`, `add`, ...)
become enumerations.  `LikeExpression` stores the regex string compiled at
construction time (`reString` in the source). -/

/-- The comparison operator singletons `eqOp, neqOp, lsOp, grOp, lseqOp,
greqOp`. -/
inductive ComparisonOp where
  | eqOp
  | neqOp
  | lsOp
  | grOp
  | lseqOp
  | greqOp
deriving DecidableEq, Repr

/-- The unary boolean operator singletons `isNullOp, isNonNullOp, notOp`. -/
inductive UnaryBoolOp where
  | isNullOp
  | isNonNullOp
  | notOp
deriving DecidableEq, Repr

/-- The binary arithmetic operator singletons `add, sub, mult, div`. -/
inductive ArithOp where
  | add
  | sub
  | mult
  | div
deriving DecidableEq, Repr

/-- The expression AST: one constructor per concrete node class of the
source.  `Literal` carries the stored `Value` (the parser only ever builds
boolean and numeric literals through it). -/
inductive Expr where
  | ComparisonExpression (op : ComparisonOp) (e1 e2 : Expr)
  | OrExpression (e1 e2 : Expr)
  | AndExpression (e1 e2 : Expr)
  | UnaryBooleanExpression (op : UnaryBoolOp) (e1 : Expr)
  | LikeExpression (e : Expr) (reString : String)
  | BetweenExpression (e l u : Expr)
  | InExpression (e : Expr) (l : List Expr)
  | NotInExpression (e : Expr) (l : List Expr)
  | ArithmeticExpression (op : ArithOp) (e1 e2 : Expr)
  | UnaryArithExpression (e1 : Expr)
  | Literal (v : Value)
  | StringLiteral (s : String)
  | Identifier (i : String)

/-- The relational function a comparison operator singleton applies
(`Eq::eval` calls `operator==`, and so on). -/
def compOpFun : ComparisonOp → Value → Value → Bool
  | .eqOp => valueEq
  | .neqOp => valueNe
  | .lsOp => valueLt
  | .grOp => valueGt
  | .lseqOp => valueLe
  | .greqOp => valueGe

/-- `booleval`: evaluate a comparison — `BN_UNKNOWN` if either operand's
value is unknown, else the lifted native comparison.  (The C++ evaluates the
second operand lazily; evaluation is pure, so values are passed here.) -/
def booleval (op : Value → Value → Bool) (v1 v2 : Value) : BoolOrNone :=
  if !unknown v1 then
    if !unknown v2 then .ofBool (op v1 v2)
    else .BN_UNKNOWN
  else .BN_UNKNOWN

/-- The body of `OrExpression::eval_bool` on the two operand results. -/
def orEval (bn1 bn2 : BoolOrNone) : BoolOrNone :=
  if bn1 = .BN_TRUE then .BN_TRUE
  else if bn2 = .BN_TRUE then .BN_TRUE
  else if bn1 = .BN_FALSE ∧ bn2 = .BN_FALSE then .BN_FALSE
  else .BN_UNKNOWN

/-- The body of `AndExpression::eval_bool` on the two operand results. -/
def andEval (bn1 bn2 : BoolOrNone) : BoolOrNone :=
  if bn1 = .BN_FALSE then .BN_FALSE
  else if bn2 = .BN_FALSE then .BN_FALSE
  else if bn1 = .BN_TRUE ∧ bn2 = .BN_TRUE then .BN_TRUE
  else .BN_UNKNOWN

/-- The body of `Not::eval`: identity on `BN_UNKNOWN`, otherwise boolean
negation. -/
def notEval (bn : BoolOrNone) : BoolOrNone :=
  if bn = .BN_UNKNOWN then bn
  else if bn = .BN_TRUE then .BN_FALSE else .BN_TRUE

/-- `ArithmeticOperator::eval` for each singleton: delegate to the value
model's arithmetic.  Modelled from the spec: the `Value` arithmetic itself
is external (numeric pairs with promotion; 64-bit wrap-around on exact
integers; unknown on incompatible operands, including division by zero). -/
def arithEval : ArithOp → Value → Value → Value
  | .add, .VInt a, .VInt b => .VInt (int64OfInt (a + b))
  | .add, .VInt a, .VFloat b => .VFloat ((a : Rat) + b)
  | .add, .VFloat a, .VInt b => .VFloat (a + (b : Rat))
  | .add, .VFloat a, .VFloat b => .VFloat (a + b)
  | .sub, .VInt a, .VInt b => .VInt (int64OfInt (a - b))
  | .sub, .VInt a, .VFloat b => .VFloat ((a : Rat) - b)
  | .sub, .VFloat a, .VInt b => .VFloat (a - (b : Rat))
  | .sub, .VFloat a, .VFloat b => .VFloat (a - b)
  | .mult, .VInt a, .VInt b => .VInt (int64OfInt (a * b))
  | .mult, .VInt a, .VFloat b => .VFloat ((a : Rat) * b)
  | .mult, .VFloat a, .VInt b => .VFloat (a * (b : Rat))
  | .mult, .VFloat a, .VFloat b => .VFloat (a * b)
  | .div, .VInt a, .VInt b => if b = 0 then .VUnknown else .VInt (int64OfInt (a.tdiv b))
  | .div, .VInt a, .VFloat b => if b = 0 then .VUnknown else .VFloat ((a : Rat) / b)
  | .div, .VFloat a, .VInt b => if b = 0 then .VUnknown else .VFloat (a / (b : Rat))
  | .div, .VFloat a, .VFloat b => if b = 0 then .VUnknown else .VFloat (a / b)
  | _, _, _ => .VUnknown

/-- Reinterpretation of a tri-state result as a `Value` (the implicit
`BoolOrNone → Value` conversion used by `BoolExpression::eval`): `Unknown`
becomes the unknown value.  Modelled from the spec. -/
def boolToValue : BoolOrNone → Value
  | .BN_TRUE => .VBool true
  | .BN_FALSE => .VBool false
  | .BN_UNKNOWN => .VUnknown

/-- The default `ValueExpression::eval_bool`: a boolean value lifts to its
tri-state, anything else (including unknown) is `BN_UNKNOWN`. -/
def valueToBool : Value → BoolOrNone
  | .VBool b => .ofBool b
  | _ => .BN_UNKNOWN

/-- The loop of `InExpression::eval_bool` over the evaluated list elements,
with the running result `r` (initially `BN_FALSE`): an unknown element turns
`r` to `BN_UNKNOWN`; a known element equal to `ve` returns `BN_TRUE`
immediately. -/
def inLoopV (ve : Value) : List Value → BoolOrNone → BoolOrNone
  | [], r => r
  | li :: rest, r =>
    if unknown li then inLoopV ve rest .BN_UNKNOWN
    else if valueEq ve li then .BN_TRUE
    else inLoopV ve rest r

/-- The loop of `NotInExpression::eval_bool` over the evaluated list
elements, with the running result `r` (initially `BN_TRUE`): an unknown
element turns `r` to `BN_UNKNOWN`; a known type-incompatible element (when
`r` is not yet `BN_UNKNOWN`) turns `r` to `BN_FALSE` and skips the equality
test; a known element equal to `ve` returns `BN_FALSE` immediately. -/
def notInLoopV (ve : Value) : List Value → BoolOrNone → BoolOrNone
  | [], r => r
  | li :: rest, r =>
    if unknown li then notInLoopV ve rest .BN_UNKNOWN
    else if r ≠ .BN_UNKNOWN ∧ (!sameType ve li && !(numeric ve && numeric li)) = true then
      notInLoopV ve rest .BN_FALSE
    else if valueEq ve li then .BN_FALSE
    else notInLoopV ve rest r

mutual

/-- Evaluation of an AST node to a `Value` against an environment: the
union of the virtual `eval`/`eval_bool` methods of the node classes.  A
boolean node computes its tri-state result and reinterprets it as a value
(`BoolExpression::eval`); operands are read back through the default
`ValueExpression::eval_bool` (`valueToBool`).  The C++ evaluates `IN`/`NOT
IN` list elements inside the loop and short-circuits; evaluation is pure, so
evaluating the list first is observationally identical. -/
def eval : Expr → Env → Value
  | .ComparisonExpression op e1 e2, env =>
    boolToValue (booleval (compOpFun op) (eval e1 env) (eval e2 env))
  | .OrExpression e1 e2, env =>
    boolToValue (orEval (valueToBool (eval e1 env)) (valueToBool (eval e2 env)))
  | .AndExpression e1 e2, env =>
    boolToValue (andEval (valueToBool (eval e1 env)) (valueToBool (eval e2 env)))
  | .UnaryBooleanExpression .isNullOp e1, env =>
    boolToValue (.ofBool (unknown (eval e1 env)))
  | .UnaryBooleanExpression .isNonNullOp e1, env =>
    boolToValue (.ofBool (!unknown (eval e1 env)))
  | .UnaryBooleanExpression .notOp e1, env =>
    boolToValue (notEval (valueToBool (eval e1 env)))
  | .LikeExpression e1 re, env =>
    boolToValue
      (match eval e1 env with
       | .VString s => .ofBool (regexMatchStr re s)
       | _ => .BN_UNKNOWN)
  | .BetweenExpression e l u, env =>
    boolToValue
      (if unknown (eval e env) || unknown (eval l env) || unknown (eval u env) then
        .BN_UNKNOWN
      else .ofBool (valueGe (eval e env) (eval l env) && valueLe (eval e env) (eval u env)))
  | .InExpression e1 l, env =>
    boolToValue
      (if unknown (eval e1 env) then .BN_UNKNOWN
       else inLoopV (eval e1 env) (evalList l env) .BN_FALSE)
  | .NotInExpression e1 l, env =>
    boolToValue
      (if unknown (eval e1 env) then .BN_UNKNOWN
       else notInLoopV (eval e1 env) (evalList l env) .BN_TRUE)
  | .ArithmeticExpression op e1 e2, env => arithEval op (eval e1 env) (eval e2 env)
  | .UnaryArithExpression e1, env => valueNeg (eval e1 env)
  | .Literal v, _ => v
  | .StringLiteral s, _ => .VString s
  | .Identifier i, env => Env.value env i

/-- Evaluation of each element of an `IN`/`NOT IN` list. -/
def evalList : List Expr → Env → List Value
  | [], _ => []
  | e :: es, env => eval e env :: evalList es env

end

/-- The tri-state result of a node (`eval_bool` through virtual dispatch):
for a boolean node this equals its native `eval_bool` (reinterpreting the
value produced by `BoolExpression::eval` loses nothing), and for a value
node it is the default `ValueExpression::eval_bool`. -/
def eval_bool (e : Expr) (env : Env) : BoolOrNone := valueToBool (eval e env)

/-! ### The exact-numeric literal compiler (`Parse::parseExactNumeric`)

The C++ strips `_` separators, pre-detects a `0b`/`0x` radix marker on the
second character (stripping it), re-selects octal whenever the remaining
first character is `'0'`, and hands the rest to `strtoull`.  `strtoull` is
modelled below; indexing one past the end of a `std::string` yields `'\0'`
(well-defined in C++11), modelled by the `'\x00'` defaults. -/

/-- Numeric value of a character as a digit (`0`–`9`, `a`–`f`, `A`–`F`),
`none` otherwise. -/
def hexDigitP (c : Char) : Option Nat :=
  let n := c.toNat
  if 48 ≤ n ∧ n ≤ 57 then some (n - 48)
  else if 97 ≤ n ∧ n ≤ 102 then some (n - 87)
  else if 65 ≤ n ∧ n ≤ 70 then some (n - 55)
  else none

/-- Whether `c` is a valid digit for the given radix. -/
def isDigitLt (base : Nat) (c : Char) : Bool :=
  match hexDigitP c with
  | some v => decide (v < base)
  | none => false

/-- The maximal initial run of valid digits for the radix (the "subject
sequence" `strtoull` converts), as digit values. -/
def digitsRun (base : Nat) : List Char → List Nat
  | [] => []
  | c :: cs =>
    match hexDigitP c with
    | some v => if v < base then v :: digitsRun base cs else []
    | none => []

/-- Value of a digit-value sequence in the given radix. -/
def natOfRun (base : Nat) (ds : List Nat) : Nat :=
  ds.foldl (fun a d => a * base + d) 0

/-- Value of a character sequence read as digits in the given radix (only
meaningful when each character is a valid digit for the radix). -/
def radixVal (base : Nat) (s : List Char) : Nat :=
  natOfRun base (s.map (fun c => (hexDigitP c).getD 0))

/-- `ULLONG_MAX`, the largest `unsigned long long` value. -/
def UINT64_MAX : Nat := 2 ^ 64 - 1

/-- `INT64_MAX`, the largest `int64_t` value. -/
def INT64_MAX : Nat := 2 ^ 63 - 1

/-- Modelled from the spec: C `strtoull(s, 0, base)` restricted to subjects
without leading whitespace or sign (token text always starts with a digit).
Base `0` auto-detects: a `0x`/`0X` marker followed by a hex digit selects
base 16, a leading `0` selects base 8, otherwise base 10; an explicit base
16 also skips a `0x`/`0X` marker.  The maximal valid digit run is
converted; on overflow the result is `ULLONG_MAX` with `errno = ERANGE`
(the boolean component). -/
def strtoull (s : List Char) (base : Nat) : Nat × Bool :=
  let skip : Bool :=
    decide ((base = 0 ∨ base = 16) ∧ s.headD '\x00' = '0' ∧
      (s.getD 1 '\x00' = 'x' ∨ s.getD 1 '\x00' = 'X') ∧
      isDigitLt 16 (s.getD 2 '\x00') = true)
  let s1 : List Char := if skip then s.drop 2 else s
  let b : Nat :=
    if base ≠ 0 then base
    else if skip then 16
    else if s.headD '\x00' = '0' then 8
    else 10
  let n : Nat := natOfRun b (digitsRun b s1)
  if n > UINT64_MAX then (UINT64_MAX, true) else (n, false)

/-- `Parse::parseExactNumeric`: compile an exact-numeric token (with
optional fused unary minus).  `_` separators are stripped; a `0b`/`0B` or
`0x`/`0X` marker in the second character position selects binary or
hexadecimal and is stripped; a remaining leading `'0'` then re-selects
octal (the source has no `else` before this check, so it also fires on the
stripped form of a prefixed literal).  The value is accepted when
`strtoull` did not overflow and either a radix was pre-selected or the
value fits `INT64_MAX`; under the fused minus a value of exactly
`INT64_MAX + 1` is additionally accepted as `INT64_MIN`.  `none` models the
null return with `error = "integer literal too big"`. -/
def parseExactNumeric (val : String) (negate : Bool) : Option Expr :=
  let s0 : List Char := val.data.filter (fun c => c ≠ '_')
  let pre : Nat × List Char :=
    if s0.getD 1 '\x00' = 'b' ∨ s0.getD 1 '\x00' = 'B' then (2, s0.drop 2)
    else if s0.getD 1 '\x00' = 'x' ∨ s0.getD 1 '\x00' = 'X' then (16, s0.drop 2)
    else (0, s0)
  let base : Nat := if pre.2.headD '\x00' = '0' then 8 else pre.1
  let vr : Nat × Bool := strtoull pre.2 base
  if vr.2 = false ∧ (base ≠ 0 ∨ vr.1 ≤ INT64_MAX) then
    let r : Int := toInt64 vr.1
    some (.Literal (.VInt (if negate then int64OfInt (-r) else r)))
  else if negate = true ∧ vr.1 = 2 ^ 63 then
    some (.Literal (.VInt (-(2 ^ 63 : Int))))
  else none

/-- Decimal value of a plain digit run (helper for the approximate-numeric
model). -/
def decDigitsVal (s : List Char) : Nat :=
  s.foldl (fun a c => a * 10 + (hexDigitP c).getD 0) 0

/-- Modelled from the spec: the exponent suffix of `strtod`, applied to a
mantissa. -/
def applyExp (m : Rat) (s : List Char) : Rat :=
  match s with
  | '+' :: r => m * 10 ^ decDigitsVal (r.takeWhile (fun c => c.isDigit))
  | '-' :: r => m / 10 ^ decDigitsVal (r.takeWhile (fun c => c.isDigit))
  | r => m * 10 ^ decDigitsVal (r.takeWhile (fun c => c.isDigit))

/-- Modelled from the spec: C `strtod` on the token shapes the tokeniser
produces (digits, optional fraction, optional exponent), idealised to exact
rationals.  In the idealised model no overflow or underflow occurs. -/
def strtodVal (s : List Char) : Rat :=
  let ip := s.takeWhile (fun c => c.isDigit)
  let rest := s.dropWhile (fun c => c.isDigit)
  match rest with
  | '.' :: r2 =>
    let frac := r2.takeWhile (fun c => c.isDigit)
    let r3 := r2.dropWhile (fun c => c.isDigit)
    let m : Rat := (decDigitsVal ip : Rat) + (decDigitsVal frac : Rat) / (10 ^ frac.length)
    (match r3 with
     | 'E' :: r4 => applyExp m r4
     | 'e' :: r4 => applyExp m r4
     | _ => m)
  | 'E' :: r4 => applyExp (decDigitsVal ip : Rat) r4
  | 'e' :: r4 => applyExp (decDigitsVal ip : Rat) r4
  | _ => (decDigitsVal ip : Rat)

/-- `Parse::parseApproxNumeric`: strip `_` separators and parse as a
double; in the idealised rational model `strtod` never sets `errno`, so the
overflow/underflow failure path is unreachable here. -/
def parseApproxNumeric (val : String) : Option Expr :=
  some (.Literal (.VFloat (strtodVal (val.data.filter (fun c => c ≠ '_')))))

/-! ### Token stream (external collaborator)

Modelled from the spec: the tokeniser supplies typed tokens with a one-slot
pushback; after exhaustion `nextToken` returns the end-of-stream token
forever.  Following the spec's design note, the stream is a pre-tokenized
sequence with a cursor, so `returnTokens` is a cursor decrement. -/

/-- The lexical token kinds consumed by the parser. -/
inductive TokenType where
  | T_EOS
  | T_NULL
  | T_TRUE
  | T_FALSE
  | T_NOT
  | T_AND
  | T_OR
  | T_BETWEEN
  | T_LIKE
  | T_ESCAPE
  | T_IN
  | T_IS
  | T_IDENTIFIER
  | T_STRING
  | T_NUMERIC_EXACT
  | T_NUMERIC_APPROX
  | T_LPAREN
  | T_RPAREN
  | T_COMMA
  | T_PLUS
  | T_MINUS
  | T_MULT
  | T_DIV
  | T_EQUAL
  | T_NEQ
  | T_LESS
  | T_GRT
  | T_LSEQ
  | T_GREQ
deriving DecidableEq, Repr

/-- A lexical token: kind and literal text. -/
structure Token where
  type : TokenType
  val : String
deriving DecidableEq, Repr

/-- The end-of-stream token. -/
def eosToken : Token := ⟨.T_EOS, ""⟩

/-- Modelled from the spec: the tokeniser, as a pre-tokenized sequence with
a cursor. -/
structure Tokeniser where
  toks : List Token
  pos : Nat
deriving DecidableEq, Repr

/-- `Tokeniser::nextToken`: return the token under the cursor (or the
end-of-stream token forever after exhaustion) and advance. -/
def Tokeniser.nextToken (t : Tokeniser) : Token × Tokeniser :=
  match t.toks.get? t.pos with
  | some tok => (tok, ⟨t.toks, t.pos + 1⟩)
  | none => (eosToken, ⟨t.toks, t.pos + 1⟩)

/-- `Tokeniser::returnTokens`: push back the single most recently returned
token (cursor decrement). -/
def Tokeniser.returnTokens (t : Tokeniser) : Tokeniser := ⟨t.toks, t.pos - 1⟩

/-! ### The recursive-descent parser (`class Parse`)

The C++ signals failure through two channels: `throwParseError` throws
(modelled as `Except.error`), while most productions return a null pointer
after setting the member `error` string (modelled as an `Option` result
with the error string carried in the parse state).  Each production takes a
fuel argument (structural recursion); the fuel supplied by `make_selector`
is far larger than any possible recursion depth, so exhaustion (also an
`Except.error`) is unreachable from it. -/

/-- The parser state: the tokeniser plus the `Parse::error` member. -/
structure PState where
  tok : Tokeniser
  error : String
deriving DecidableEq, Repr

/-- `throwParseError`: push the offending token back, re-read it, and throw
an error carrying its text and the reason. -/
def throwParseError (tk : Tokeniser) (msg : String) : Except String α :=
  .error ("Illegal selector: '" ++ (tk.returnTokens.nextToken).1.val ++ "': " ++ msg)

/-- The validation of the `ESCAPE` string argument in
`Parse::specialComparisons`: a string of more than one character, or the
strings `"%"`/`"_"`, are rejected by `throwParseError`; anything else
passes.  `tk` is the tokeniser as positioned right after reading the
escape-string token. -/
def escapeCheck (tk : Tokeniser) (escTok : Token) : Except String Unit :=
  if escTok.val.length > 1 then
    throwParseError tk ("single character string required after ESCAPE")
  else if escTok.val = "%" ∨ escTok.val = "_" then
    throwParseError tk ("'%' and '_' are not allowed as ESCAPE characters")
  else .ok ()

/-- The message thrown when a parser production runs out of fuel; never
reachable from `make_selector`. -/
def fuelMsg : String := "fuel exhausted"

mutual

/-- `Parse::selectorExpression`: an empty stream yields the literal `true`,
otherwise parse an `orExpression`. -/
def selectorExpression : Nat → PState → Except String (Option Expr × PState)
  | 0, _ => .error fuelMsg
  | fuel+1, st =>
    let n := st.tok.nextToken
    if n.1.type = .T_EOS then .ok (some (.Literal (.VBool true)), { st with tok := n.2 })
    else orExpression fuel { st with tok := n.2.returnTokens }

/-- `Parse::orExpression`: an `andExpression` followed by any number of
`OR andExpression`. -/
def orExpression : Nat → PState → Except String (Option Expr × PState)
  | 0, _ => .error fuelMsg
  | fuel+1, st =>
    match andExpression fuel st with
    | .error e => .error e
    | .ok (none, st1) => .ok (none, st1)
    | .ok (some e, st1) => orLoop fuel e st1

/-- The `while` loop of `Parse::orExpression`. -/
def orLoop : Nat → Expr → PState → Except String (Option Expr × PState)
  | 0, _, _ => .error fuelMsg
  | fuel+1, e, st =>
    let n := st.tok.nextToken
    if n.1.type = .T_OR then
      match andExpression fuel { st with tok := n.2 } with
      | .error er => .error er
      | .ok (none, st1) => .ok (none, st1)
      | .ok (some e1, st1) => orLoop fuel (.OrExpression e e1) st1
    else .ok (some e, { st with tok := n.2.returnTokens })

/-- `Parse::andExpression`: a `comparisonExpression` followed by any number
of `AND comparisonExpression`. -/
def andExpression : Nat → PState → Except String (Option Expr × PState)
  | 0, _ => .error fuelMsg
  | fuel+1, st =>
    match comparisonExpression fuel st with
    | .error e => .error e
    | .ok (none, st1) => .ok (none, st1)
    | .ok (some e, st1) => andLoop fuel e st1

/-- The `while` loop of `Parse::andExpression`. -/
def andLoop : Nat → Expr → PState → Except String (Option Expr × PState)
  | 0, _, _ => .error fuelMsg
  | fuel+1, e, st =>
    let n := st.tok.nextToken
    if n.1.type = .T_AND then
      match comparisonExpression fuel { st with tok := n.2 } with
      | .error er => .error er
      | .ok (none, st1) => .ok (none, st1)
      | .ok (some e1, st1) => andLoop fuel (.AndExpression e e1) st1
    else .ok (some e, { st with tok := n.2.returnTokens })

/-- `Parse::specialComparisons`: the `LIKE`/`BETWEEN`/`IN` comparison
forms, optionally wrapped in `NOT` when `negated`. -/
def specialComparisons : Nat → PState → Expr → Bool → Except String (Option Expr × PState)
  | 0, _, _, _ => .error fuelMsg
  | fuel+1, st, e1, negated =>
    let n0 := st.tok.nextToken
    match n0.1.type with
    | .T_LIKE =>
      let nt := n0.2.nextToken
      if nt.1.type ≠ .T_STRING then
        .ok (none, { st with tok := nt.2, error := "expected string after LIKE" })
      else
        let n2 := nt.2.nextToken
        if n2.1.type = .T_ESCAPE then
          let ne := n2.2.nextToken
          if ne.1.type ≠ .T_STRING then
            .ok (none, { st with tok := ne.2, error := "expected string after ESCAPE" })
          else
            match escapeCheck ne.2 ne.1 with
            | .error m => .error m
            | .ok _ =>
              match LikeExpression.toRegex nt.1.val ne.1.val with
              | none => .error ("Internal error")
              | some re =>
                let l := Expr.LikeExpression e1 re
                .ok (some (if negated then .UnaryBooleanExpression .notOp l else l),
                  { st with tok := ne.2 })
        else
          match LikeExpression.toRegex nt.1.val "" with
          | none => .error ("Internal error")
          | some re =>
            let l := Expr.LikeExpression e1 re
            .ok (some (if negated then .UnaryBooleanExpression .notOp l else l),
              { st with tok := n2.2.returnTokens })
    | .T_BETWEEN =>
      match addExpression fuel { st with tok := n0.2 } with
      | .error er => .error er
      | .ok (none, st1) => .ok (none, st1)
      | .ok (some lower, st1) =>
        let na := st1.tok.nextToken
        if na.1.type ≠ .T_AND then
          .ok (none, { st1 with tok := na.2, error := "expected AND after BETWEEN" })
        else
          match addExpression fuel { st1 with tok := na.2 } with
          | .error er => .error er
          | .ok (none, st2) => .ok (none, st2)
          | .ok (some upper, st2) =>
            let b := Expr.BetweenExpression e1 lower upper
            .ok (some (if negated then .UnaryBooleanExpression .notOp b else b), st2)
    | .T_IN =>
      let np := n0.2.nextToken
      if np.1.type ≠ .T_LPAREN then
        .ok (none, { st with tok := np.2, error := "missing '(' after IN" })
      else
        match inList fuel { st with tok := np.2 } [] with
        | .error er => .error er
        | .ok (none, st1) => .ok (none, st1)
        | .ok (some list, st1) =>
          let nr := st1.tok.nextToken
          if nr.1.type ≠ .T_RPAREN then
            .ok (none, { st1 with tok := nr.2, error := "missing ',' or ')' after IN" })
          else
            .ok (some (if negated then .NotInExpression e1 list else .InExpression e1 list),
              { st1 with tok := nr.2 })
    | _ => .ok (none, { st with tok := n0.2, error := "expected LIKE, IN or BETWEEN" })

/-- The `do ... while (T_COMMA)` element loop of the `IN` case of
`Parse::specialComparisons`; on exit the terminating token is pushed
back. -/
def inList : Nat → PState → List Expr → Except String (Option (List Expr) × PState)
  | 0, _, _ => .error fuelMsg
  | fuel+1, st, acc =>
    match addExpression fuel st with
    | .error er => .error er
    | .ok (none, st1) => .ok (none, st1)
    | .ok (some e, st1) =>
      let nc := st1.tok.nextToken
      if nc.1.type = .T_COMMA then inList fuel { st1 with tok := nc.2 } (acc ++ [e])
      else .ok (some (acc ++ [e]), { st1 with tok := nc.2.returnTokens })

/-- `Parse::comparisonExpression`: leading `NOT` recurses; otherwise an
`addExpression` followed by `IS [NOT] NULL`, a `specialComparisons` form,
a comparison operator and another `addExpression`, or nothing. -/
def comparisonExpression : Nat → PState → Except String (Option Expr × PState)
  | 0, _ => .error fuelMsg
  | fuel+1, st =>
    let n := st.tok.nextToken
    if n.1.type = .T_NOT then
      match comparisonExpression fuel { st with tok := n.2 } with
      | .error e => .error e
      | .ok (none, st1) => .ok (none, st1)
      | .ok (some e, st1) => .ok (some (.UnaryBooleanExpression .notOp e), st1)
    else
      match addExpression fuel { st with tok := n.2.returnTokens } with
      | .error e => .error e
      | .ok (none, st1) => .ok (none, st1)
      | .ok (some e1, st1) =>
        let n2 := st1.tok.nextToken
        match n2.1.type with
        | .T_IS =>
          let n3 := n2.2.nextToken
          match n3.1.type with
          | .T_NULL => .ok (some (.UnaryBooleanExpression .isNullOp e1), { st1 with tok := n3.2 })
          | .T_NOT =>
            let n4 := n3.2.nextToken
            if n4.1.type = .T_NULL then
              .ok (some (.UnaryBooleanExpression .isNonNullOp e1), { st1 with tok := n4.2 })
            else
              .ok (none, { st1 with tok := n4.2, error := "expected NULL or NOT NULL after IS" })
          | _ => .ok (none, { st1 with tok := n3.2, error := "expected NULL or NOT NULL after IS" })
        | .T_NOT => specialComparisons fuel { st1 with tok := n2.2 } e1 true
        | .T_BETWEEN => specialComparisons fuel { st1 with tok := n2.2.returnTokens } e1 false
        | .T_LIKE => specialComparisons fuel { st1 with tok := n2.2.returnTokens } e1 false
        | .T_IN => specialComparisons fuel { st1 with tok := n2.2.returnTokens } e1 false
        | _ => comparisonTail fuel e1 { st1 with tok := n2.2.returnTokens }

/-- The trailing comparison-operator switch of
`Parse::comparisonExpression`. -/
def comparisonTail : Nat → Expr → PState → Except String (Option Expr × PState)
  | 0, _, _ => .error fuelMsg
  | fuel+1, e1, st =>
    let n := st.tok.nextToken
    let op? : Option ComparisonOp :=
      match n.1.type with
      | .T_EQUAL => some .eqOp
      | .T_NEQ => some .neqOp
      | .T_LESS => some .lsOp
      | .T_GRT => some .grOp
      | .T_LSEQ => some .lseqOp
      | .T_GREQ => some .greqOp
      | _ => none
    match op? with
    | none => .ok (some e1, { st with tok := n.2.returnTokens })
    | some op =>
      match addExpression fuel { st with tok := n.2 } with
      | .error e => .error e
      | .ok (none, st1) => .ok (none, st1)
      | .ok (some e2, st1) => .ok (some (.ComparisonExpression op e1 e2), st1)

/-- `Parse::addExpression`: a `multiplyExpression` followed by any number
of `+`/`-` `multiplyExpression`. -/
def addExpression : Nat → PState → Except String (Option Expr × PState)
  | 0, _ => .error fuelMsg
  | fuel+1, st =>
    match multiplyExpression fuel st with
    | .error e => .error e
    | .ok (none, st1) => .ok (none, st1)
    | .ok (some e, st1) => addLoop fuel e st1

/-- The `while` loop of `Parse::addExpression`. -/
def addLoop : Nat → Expr → PState → Except String (Option Expr × PState)
  | 0, _, _ => .error fuelMsg
  | fuel+1, e, st =>
    let n := st.tok.nextToken
    if n.1.type = .T_PLUS ∨ n.1.type = .T_MINUS then
      let op : ArithOp := if n.1.type = .T_PLUS then .add else .sub
      match multiplyExpression fuel { st with tok := n.2 } with
      | .error er => .error er
      | .ok (none, st1) => .ok (none, st1)
      | .ok (some e1, st1) => addLoop fuel (.ArithmeticExpression op e e1) st1
    else .ok (some e, { st with tok := n.2.returnTokens })

/-- `Parse::multiplyExpression`: a `unaryArithExpression` followed by any
number of `*`/`/` `unaryArithExpression`. -/
def multiplyExpression : Nat → PState → Except String (Option Expr × PState)
  | 0, _ => .error fuelMsg
  | fuel+1, st =>
    match unaryArithExpression fuel st with
    | .error e => .error e
    | .ok (none, st1) => .ok (none, st1)
    | .ok (some e, st1) => mulLoop fuel e st1

/-- The `while` loop of `Parse::multiplyExpression`. -/
def mulLoop : Nat → Expr → PState → Except String (Option Expr × PState)
  | 0, _, _ => .error fuelMsg
  | fuel+1, e, st =>
    let n := st.tok.nextToken
    if n.1.type = .T_MULT ∨ n.1.type = .T_DIV then
      let op : ArithOp := if n.1.type = .T_MULT then .mult else .div
      match unaryArithExpression fuel { st with tok := n.2 } with
      | .error er => .error er
      | .ok (none, st1) => .ok (none, st1)
      | .ok (some e1, st1) => mulLoop fuel (.ArithmeticExpression op e e1) st1
    else .ok (some e, { st with tok := n.2.returnTokens })

/-- `Parse::unaryArithExpression`: parenthesised `orExpression`, unary `+`
(a no-op), unary `-` (fused with a directly following exact-numeric token,
otherwise a runtime negation node), or a `primaryExpression`. -/
def unaryArithExpression : Nat → PState → Except String (Option Expr × PState)
  | 0, _ => .error fuelMsg
  | fuel+1, st =>
    let n := st.tok.nextToken
    match n.1.type with
    | .T_LPAREN =>
      match orExpression fuel { st with tok := n.2 } with
      | .error e => .error e
      | .ok (none, st1) => .ok (none, st1)
      | .ok (some e, st1) =>
        let n2 := st1.tok.nextToken
        if n2.1.type ≠ .T_RPAREN then
          .ok (none, { st1 with tok := n2.2, error := "missing ')' after '('" })
        else .ok (some e, { st1 with tok := n2.2 })
    | .T_PLUS => primaryExpression fuel { st with tok := n.2 }
    | .T_MINUS =>
      let n2 := n.2.nextToken
      if n2.1.type = .T_NUMERIC_EXACT then
        match parseExactNumeric n2.1.val true with
        | some e => .ok (some e, { st with tok := n2.2 })
        | none => .ok (none, { st with tok := n2.2, error := "integer literal too big" })
      else
        match unaryArithExpression fuel { st with tok := n2.2.returnTokens } with
        | .error e => .error e
        | .ok (none, st1) => .ok (none, st1)
        | .ok (some e, st1) => .ok (some (.UnaryArithExpression e), st1)
    | _ => primaryExpression fuel { st with tok := n.2.returnTokens }

/-- `Parse::primaryExpression`: identifier, string, boolean or numeric
literal. -/
def primaryExpression : Nat → PState → Except String (Option Expr × PState)
  | 0, _ => .error fuelMsg
  | _+1, st =>
    let n := st.tok.nextToken
    match n.1.type with
    | .T_IDENTIFIER => .ok (some (.Identifier n.1.val), { st with tok := n.2 })
    | .T_STRING => .ok (some (.StringLiteral n.1.val), { st with tok := n.2 })
    | .T_FALSE => .ok (some (.Literal (.VBool false)), { st with tok := n.2 })
    | .T_TRUE => .ok (some (.Literal (.VBool true)), { st with tok := n.2 })
    | .T_NUMERIC_EXACT =>
      match parseExactNumeric n.1.val false with
      | some e => .ok (some e, { st with tok := n.2 })
      | none => .ok (none, { st with tok := n.2, error := "integer literal too big" })
    | .T_NUMERIC_APPROX =>
      match parseApproxNumeric n.1.val with
      | some e => .ok (some e, { st with tok := n.2 })
      | none => .ok (none, { st with tok := n.2, error := "floating literal overflow/underflow" })
    | _ => .ok (none, { st with tok := n.2, error := "expected literal or identifier" })

end

/-- The top-level `ConcreteExpression`: owns the root node produced by the
parser.  The constructor argument in the C++ is a possibly-null
`unique_ptr`, so the owned root is an `Option`. -/
structure ConcreteExpression where
  expression : Option Expr

/-- `Expression::eval` through `ConcreteExpression`: only `BN_TRUE` reports
`true`; `BN_UNKNOWN` and `BN_FALSE` both report `false`.  Evaluating a
`ConcreteExpression` whose root is null dereferences a null pointer in the
C++; that case is modelled as `none`. -/
def ConcreteExpression.evalTop (c : ConcreteExpression) (env : Env) : Option Bool :=
  match c.expression with
  | none => none
  | some e => some (eval_bool e env = .BN_TRUE)

/-- The null test `!b` applied to the freshly constructed
`make_unique<ConcreteExpression>(...)` result in `make_selector`: a
`make_unique` pointer is never null, whatever the parse result it wraps, so
this is constantly `false`. -/
def uniquePtrIsNull (_ : ConcreteExpression) : Bool := false

/-- Fuel bound handed to the parser by `make_selector`; the recursion depth
of the parser is linear in the token count with a small factor, so this is
never exhausted. -/
def parserFuel (toks : List Token) : Nat := 16 * (toks.length + 2)

/-- `make_selector`: run `Parse::selectorExpression` over the token stream,
wrap the result in a `ConcreteExpression`, check the (always non-null)
wrapper pointer, and require end of stream, throwing "extra input"
otherwise. -/
def make_selector (toks : List Token) : Except String ConcreteExpression :=
  let st : PState := ⟨⟨toks, 0⟩, ""⟩
  match selectorExpression (parserFuel toks) st with
  | .error e => .error e
  | .ok (oe, st1) =>
    let b : ConcreteExpression := ⟨oe⟩
    if uniquePtrIsNull b then throwParseError st1.tok st1.error
    else
      let n := st1.tok.nextToken
      if n.1.type ≠ .T_EOS then throwParseError n.2 ("extra input")
      else .ok b

/-! ### Specification-side definitions

These definitions follow the wording of the specification (not the source);
the refinement theorems below compare the embedded evaluators against
them. -/

/-- The spec's tri-state `AND` table: `False` if either operand is `False`,
regardless of the other being `Unknown`; `True` only if both are `True`;
else `Unknown`. -/
def andSpec : BoolOrNone → BoolOrNone → BoolOrNone
  | .BN_FALSE, _ => .BN_FALSE
  | _, .BN_FALSE => .BN_FALSE
  | .BN_TRUE, .BN_TRUE => .BN_TRUE
  | _, _ => .BN_UNKNOWN

/-- The spec's tri-state `OR` table: `True` if either operand is `True`;
`False` only if both are `False`; else `Unknown`. -/
def orSpec : BoolOrNone → BoolOrNone → BoolOrNone
  | .BN_TRUE, _ => .BN_TRUE
  | _, .BN_TRUE => .BN_TRUE
  | .BN_FALSE, .BN_FALSE => .BN_FALSE
  | _, _ => .BN_UNKNOWN

/-- The spec's tri-state `NOT` table: `True` and `False` swap, `Unknown` is
a fixed point. -/
def notSpec : BoolOrNone → BoolOrNone
  | .BN_TRUE => .BN_FALSE
  | .BN_FALSE => .BN_TRUE
  | .BN_UNKNOWN => .BN_UNKNOWN

/-- Whether `li` is a known value equal to `ve`. -/
def knownEqB (ve li : Value) : Bool := !unknown li && valueEq ve li

/-- Whether `li` is a known value whose type is incompatible with `ve` (and
not both numeric). -/
def incompatB (ve li : Value) : Bool :=
  !unknown li && (!sameType ve li && !(numeric ve && numeric li))

/-- The spec's `IN` result over the evaluated element values: `True` if the
(known) operand equals some known element; `Unknown` if the operand is
unknown, or no element equals it but some element is unknown; else
`False`. -/
def inSpec (ve : Value) (vs : List Value) : BoolOrNone :=
  if unknown ve then .BN_UNKNOWN
  else if vs.any (fun li => knownEqB ve li) then .BN_TRUE
  else if vs.any (fun li => unknown li) then .BN_UNKNOWN
  else .BN_FALSE

/-- The `NOT IN` result over the evaluated element values, as the code
computes it: `Unknown` if the operand is unknown; `False` if some known
element equals the operand; otherwise `Unknown` if any element is unknown
(earlier or later in the list), else `False` if some known element is
type-incompatible with the operand, else `True`. -/
def notInSpec (ve : Value) (vs : List Value) : BoolOrNone :=
  if unknown ve then .BN_UNKNOWN
  else if vs.any (fun li => knownEqB ve li) then .BN_FALSE
  else if vs.any (fun li => unknown li) then .BN_UNKNOWN
  else if vs.any (fun li => incompatB ve li) then .BN_FALSE
  else .BN_TRUE

/-! ### Helper lemmas -/

/-- Reinterpreting a tri-state result as a value and reading it back is the
identity; hence `eval_bool` of a boolean node is its native `eval_bool`. -/
theorem valueToBool_boolToValue (bn : BoolOrNone) : valueToBool (boolToValue bn) = bn := by
  cases bn <;> rfl

/-- Incompatible known values never compare equal under the modelled value
equality. -/
theorem valueEq_of_incompat (ve li : Value) (h : incompatB ve li = true) :
    valueEq ve li = false := by
  cases ve <;> cases li <;> simp_all [incompatB, sameType, numeric, unknown, valueEq]

/-- Characterisation of the `IN` element loop for any running result. -/
theorem inLoopV_char (ve : Value) (l : List Value) (r : BoolOrNone) :
    inLoopV ve l r =
      (if l.any (fun li => knownEqB ve li) then .BN_TRUE
       else if r = .BN_UNKNOWN ∨ l.any (fun li => unknown li) then .BN_UNKNOWN
       else r) := by
  induction l generalizing r with
  | nil => cases r <;> simp [inLoopV]
  | cons li rest ih =>
    by_cases hu : unknown li = true
    · have hK : knownEqB ve li = false := by simp [knownEqB, hu]
      have h1 : inLoopV ve (li :: rest) r = inLoopV ve rest .BN_UNKNOWN := by
        simp [inLoopV, hu]
      rw [h1, ih]
      by_cases hq : rest.any (fun li => knownEqB ve li) = true <;>
        simp [List.any_cons, hK, hu, hq]
    · simp only [Bool.not_eq_true] at hu
      by_cases he : valueEq ve li = true
      · have hK : knownEqB ve li = true := by simp [knownEqB, hu, he]
        have h1 : inLoopV ve (li :: rest) r = .BN_TRUE := by simp [inLoopV, hu, he]
        rw [h1]
        simp [List.any_cons, hK]
      · simp only [Bool.not_eq_true] at he
        have hK : knownEqB ve li = false := by simp [knownEqB, hu, he]
        have h1 : inLoopV ve (li :: rest) r = inLoopV ve rest r := by
          simp [inLoopV, hu, he]
        rw [h1, ih]
        simp [List.any_cons, hK, hu]

/-- Characterisation of the `NOT IN` element loop for any running result. -/
theorem notInLoopV_char (ve : Value) (l : List Value) (r : BoolOrNone) :
    notInLoopV ve l r =
      (if l.any (fun li => knownEqB ve li) then .BN_FALSE
       else if r = .BN_UNKNOWN ∨ l.any (fun li => unknown li) then .BN_UNKNOWN
       else if r = .BN_FALSE ∨ l.any (fun li => incompatB ve li) then .BN_FALSE
       else r) := by
  induction l generalizing r with
  | nil => cases r <;> simp [notInLoopV]
  | cons li rest ih =>
    rw [show notInLoopV ve (li :: rest) r =
        (if unknown li then notInLoopV ve rest .BN_UNKNOWN
         else if r ≠ .BN_UNKNOWN ∧ (!sameType ve li && !(numeric ve && numeric li)) = true then
           notInLoopV ve rest .BN_FALSE
         else if valueEq ve li then .BN_FALSE
         else notInLoopV ve rest r) from rfl]
    by_cases hu : unknown li = true
    · rw [if_pos hu, ih]
      have hK : knownEqB ve li = false := by simp [knownEqB, hu]
      by_cases hq : (rest.any fun x => knownEqB ve x) = true <;>
        simp [List.any_cons, hK, hu, hq]
    · have hu' : unknown li = false := by simpa using hu
      rw [if_neg hu]
      by_cases hg : (!sameType ve li && !(numeric ve && numeric li)) = true
      · have hinc : incompatB ve li = true := by
          unfold incompatB
          rw [hu', hg]
          rfl
        have he := valueEq_of_incompat ve li hinc
        have hK : knownEqB ve li = false := by simp [knownEqB, he]
        by_cases hr : r = BoolOrNone.BN_UNKNOWN
        · rw [if_neg (fun hcon => hcon.1 hr), if_neg (by simp [he]), ih]
          subst hr
          by_cases hq : (rest.any fun x => knownEqB ve x) = true <;>
            simp [List.any_cons, hK, hu', hq]
        · rw [if_pos ⟨hr, hg⟩, ih]
          by_cases hq : (rest.any fun x => knownEqB ve x) = true <;>
            by_cases hw : (rest.any fun x => unknown x) = true <;>
              simp [List.any_cons, hK, hu', hq, hw, hinc, hr]
      · have hgf : (!sameType ve li && !(numeric ve && numeric li)) = false := by
          simpa using hg
        have hI : incompatB ve li = false := by
          unfold incompatB
          rw [hgf]
          simp
        rw [if_neg (fun hcon => hg hcon.2)]
        by_cases he : valueEq ve li = true
        · rw [if_pos he]
          have hK : knownEqB ve li = true := by simp [knownEqB, hu', he]
          simp [List.any_cons, hK]
        · have he' : valueEq ve li = false := by simpa using he
          rw [if_neg he, ih]
          have hK : knownEqB ve li = false := by simp [knownEqB, he']
          simp [List.any_cons, hK, hu', hI]

/-! ### Support lemmas for the numeric-literal compiler -/

/-- A valid digit for a radix up to 10 is one of the characters `'0'`–`'9'`
(as code points). -/
theorem digit10_toNat (b : Nat) (hb : b ≤ 10) (c : Char) (h : isDigitLt b c = true) :
    48 ≤ c.toNat ∧ c.toNat ≤ 57 := by
  unfold isDigitLt at h
  cases heq : hexDigitP c with
  | none => rw [heq] at h; simp at h
  | some v =>
    rw [heq] at h
    simp only [decide_eq_true_eq] at h
    simp only [hexDigitP] at heq
    split_ifs at heq with h1 h2 h3
    · exact h1
    · injection heq with hv; omega
    · injection heq with hv; omega

/-- A valid hexadecimal digit's code point lies in the digit or letter
ranges. -/
theorem digit16_toNat (c : Char) (h : isDigitLt 16 c = true) :
    (48 ≤ c.toNat ∧ c.toNat ≤ 57) ∨ (97 ≤ c.toNat ∧ c.toNat ≤ 102) ∨
      (65 ≤ c.toNat ∧ c.toNat ≤ 70) := by
  unfold isDigitLt at h
  cases heq : hexDigitP c with
  | none => rw [heq] at h; simp at h
  | some v =>
    simp only [hexDigitP] at heq
    split_ifs at heq with h1 h2 h3
    · exact .inl h1
    · exact .inr (.inl h2)
    · exact .inr (.inr h3)

/-- A digit for a radix up to 10 is none of the radix-marker characters
`b`, `B`, `x`, `X`. -/
theorem no_marker_of_digit10 (b : Nat) (hb : b ≤ 10) (c : Char) (h : isDigitLt b c = true) :
    ¬(c = 'b' ∨ c = 'B') ∧ ¬(c = 'x' ∨ c = 'X') := by
  have hn := digit10_toNat b hb c h
  constructor
  · rintro (rfl | rfl) <;> exact absurd hn (by decide)
  · rintro (rfl | rfl) <;> exact absurd hn (by decide)

/-- The NUL default is none of the radix-marker characters. -/
theorem no_marker_of_nul :
    ¬(('\x00' : Char) = 'b' ∨ ('\x00' : Char) = 'B') ∧
      ¬(('\x00' : Char) = 'x' ∨ ('\x00' : Char) = 'X') := by
  constructor <;> rintro (h | h) <;> simp at h

/-- An element fetched with `getD` from an all-digits list is a digit or
the default. -/
theorem all_getD (b : Nat) (s : List Char) (h : s.all (isDigitLt b) = true) (i : Nat) :
    s.getD i '\x00' = '\x00' ∨ isDigitLt b (s.getD i '\x00') = true := by
  induction s generalizing i with
  | nil => left; rfl
  | cons c cs ih =>
    simp only [List.all_cons, Bool.and_eq_true] at h
    cases i with
    | zero => right; exact h.1
    | succ j => exact ih h.2 j

/-- On an all-digits list the maximal digit run is the whole list. -/
theorem digitsRun_all (b : Nat) (s : List Char) (h : s.all (isDigitLt b) = true) :
    digitsRun b s = s.map (fun c => (hexDigitP c).getD 0) := by
  induction s with
  | nil => rfl
  | cons c cs ih =>
    simp only [List.all_cons, Bool.and_eq_true] at h
    have h1 := h.1
    unfold isDigitLt at h1
    cases heq : hexDigitP c with
    | none => rw [heq] at h1; simp at h1
    | some v =>
      rw [heq] at h1
      simp only [decide_eq_true_eq] at h1
      simp [digitsRun, heq, h1, ih h.2]

/-- `strtoull` on a call where the `0x` marker skip does not fire: the
subject is the maximal digit run for the effective radix. -/
theorem strtoull_noskip (s : List Char) (b : Nat)
    (hskip : ¬((b = 0 ∨ b = 16) ∧ s.headD '\x00' = '0' ∧
      (s.getD 1 '\x00' = 'x' ∨ s.getD 1 '\x00' = 'X') ∧
      isDigitLt 16 (s.getD 2 '\x00') = true)) :
    strtoull s b =
      (if natOfRun (if b ≠ 0 then b else if s.headD '\x00' = '0' then 8 else 10)
          (digitsRun (if b ≠ 0 then b else if s.headD '\x00' = '0' then 8 else 10) s) >
          UINT64_MAX
       then (UINT64_MAX, true)
       else (natOfRun (if b ≠ 0 then b else if s.headD '\x00' = '0' then 8 else 10)
          (digitsRun (if b ≠ 0 then b else if s.headD '\x00' = '0' then 8 else 10) s), false)) := by
  have hd : decide ((b = 0 ∨ b = 16) ∧ s.headD '\x00' = '0' ∧
      (s.getD 1 '\x00' = 'x' ∨ s.getD 1 '\x00' = 'X') ∧
      isDigitLt 16 (s.getD 2 '\x00') = true) = false := decide_eq_false hskip
  simp only [strtoull, hd, Bool.false_eq_true, if_false]

/-- `toInt64` is the identity on the signed range. -/
theorem toInt64_small (n : Nat) (h : n ≤ INT64_MAX) : toInt64 n = (n : Int) := by
  unfold INT64_MAX at h
  simp only [toInt64]
  have h1 : n % 2 ^ 64 = n := Nat.mod_eq_of_lt (by omega)
  rw [h1, if_pos (by omega : n < 2 ^ 63)]

/-- `int64OfInt` is the identity on the negation of a value in the signed
range. -/
theorem int64OfInt_neg_small (n : Nat) (h : n ≤ INT64_MAX) :
    int64OfInt (-(n : Int)) = -(n : Int) := by
  unfold INT64_MAX at h
  simp only [int64OfInt]
  split_ifs with h1 <;> omega

/-- `parseExactNumeric` on a plain decimal token (no radix marker, nonzero
first digit): the value is read in base 10; values above `INT64_MAX` are
rejected except exactly `INT64_MAX + 1` under the fused minus, which gives
`INT64_MIN`. -/
theorem parseExactNumeric_decimal (val : String) (neg : Bool) (c : Char) (cs : List Char)
    (h0 : val.data.filter (fun ch => ch ≠ '_') = c :: cs)
    (hc0 : c ≠ '0') (hc : isDigitLt 10 c = true) (hcs : cs.all (isDigitLt 10) = true) :
    parseExactNumeric val neg =
      (if radixVal 10 (c :: cs) ≤ INT64_MAX then
        some (.Literal (.VInt
          (if neg then -(radixVal 10 (c :: cs) : Int) else (radixVal 10 (c :: cs) : Int))))
      else if neg = true ∧ radixVal 10 (c :: cs) = 2 ^ 63 then
        some (.Literal (.VInt (-(2 ^ 63 : Int))))
      else none) := by
  have hgd := all_getD 10 cs hcs 0
  have hstep : (c :: cs).getD 1 '\x00' = cs.getD 0 '\x00' := rfl
  have hmark : ¬((c :: cs).getD 1 '\x00' = 'b' ∨ (c :: cs).getD 1 '\x00' = 'B') ∧
      ¬((c :: cs).getD 1 '\x00' = 'x' ∨ (c :: cs).getD 1 '\x00' = 'X') := by
    rw [hstep]
    rcases hgd with hd | hd
    · rw [hd]; exact no_marker_of_nul
    · exact no_marker_of_digit10 10 (by omega) _ hd
  obtain ⟨hB, hX⟩ := hmark
  have hall : (c :: cs).all (isDigitLt 10) = true := by
    simp [List.all_cons, hc, hcs]
  have hskip : ¬(((0 : Nat) = 0 ∨ (0 : Nat) = 16) ∧ (c :: cs).headD '\x00' = '0' ∧
      ((c :: cs).getD 1 '\x00' = 'x' ∨ (c :: cs).getD 1 '\x00' = 'X') ∧
      isDigitLt 16 ((c :: cs).getD 2 '\x00') = true) := by
    rintro ⟨-, hh, -, -⟩
    rw [List.headD_cons] at hh
    exact hc0 hh
  have hst := strtoull_noskip (c :: cs) 0 hskip
  have hbase : (if (0 : Nat) ≠ 0 then (0 : Nat)
      else if (c :: cs).headD '\x00' = '0' then 8 else 10) = 10 := by
    rw [List.headD_cons]
    simp [hc0]
  rw [hbase] at hst
  rw [digitsRun_all 10 _ hall] at hst
  rw [show natOfRun 10 ((c :: cs).map fun ch => (hexDigitP ch).getD 0) =
    radixVal 10 (c :: cs) from rfl] at hst
  simp only [parseExactNumeric, h0]
  rw [if_neg hB, if_neg hX]
  dsimp only
  rw [List.headD_cons, if_neg hc0, hst]
  by_cases hover : radixVal 10 (c :: cs) > UINT64_MAX
  · rw [if_pos hover]
    dsimp only
    rw [if_neg (fun hcon => by simpa using hcon.1)]
    rw [if_neg (fun hcon => by
      have := hcon.2
      unfold UINT64_MAX at this
      omega)]
    unfold UINT64_MAX at hover
    rw [if_neg (by unfold INT64_MAX; omega)]
    rw [if_neg (fun hcon => by omega)]
  · rw [if_neg hover]
    dsimp only
    by_cases hle : radixVal 10 (c :: cs) ≤ INT64_MAX
    · rw [if_pos ⟨rfl, Or.inr hle⟩, if_pos hle, toInt64_small _ hle]
      cases neg
      · rfl
      · rw [int64OfInt_neg_small _ hle]
    · rw [if_neg (fun hcon => by
        rcases hcon.2 with h | h
        · exact h rfl
        · exact hle h)]
      rw [if_neg hle]

/-- `parseExactNumeric` on a hexadecimal token whose first digit after the
`0x`/`0X` marker is nonzero: accepted (with 64-bit wrap-around) unless the
hexadecimal value overflows `uint64`. -/
theorem parseExactNumeric_hex (val : String) (neg : Bool) (x d : Char) (rest : List Char)
    (h0 : val.data.filter (fun ch => ch ≠ '_') = '0' :: x :: d :: rest)
    (hx : x = 'x' ∨ x = 'X') (hd0 : d ≠ '0') (hall : (d :: rest).all (isDigitLt 16) = true) :
    (parseExactNumeric val neg = none ↔ radixVal 16 (d :: rest) > UINT64_MAX) := by
  have hg1 : ('0' :: x :: d :: rest).getD 1 '\x00' = x := rfl
  have hB : ¬(('0' :: x :: d :: rest).getD 1 '\x00' = 'b' ∨
      ('0' :: x :: d :: rest).getD 1 '\x00' = 'B') := by
    rw [hg1]
    rcases hx with rfl | rfl <;> rintro (h | h) <;> exact absurd h (by decide)
  have hXp : ('0' :: x :: d :: rest).getD 1 '\x00' = 'x' ∨
      ('0' :: x :: d :: rest).getD 1 '\x00' = 'X' := by
    rw [hg1]; exact hx
  have hskip : ¬(((16 : Nat) = 0 ∨ (16 : Nat) = 16) ∧ (d :: rest).headD '\x00' = '0' ∧
      ((d :: rest).getD 1 '\x00' = 'x' ∨ (d :: rest).getD 1 '\x00' = 'X') ∧
      isDigitLt 16 ((d :: rest).getD 2 '\x00') = true) := by
    rintro ⟨-, hh, -, -⟩
    rw [List.headD_cons] at hh
    exact hd0 hh
  have hst := strtoull_noskip (d :: rest) 16 hskip
  have hbase : (if (16 : Nat) ≠ 0 then (16 : Nat)
      else if (d :: rest).headD '\x00' = '0' then 8 else 10) = 16 := by norm_num
  rw [hbase] at hst
  rw [digitsRun_all 16 _ hall] at hst
  rw [show natOfRun 16 ((d :: rest).map fun ch => (hexDigitP ch).getD 0) =
    radixVal 16 (d :: rest) from rfl] at hst
  simp only [parseExactNumeric, h0]
  rw [if_neg hB, if_pos hXp]
  dsimp only
  rw [show ('0' :: x :: d :: rest).drop 2 = d :: rest from rfl]
  rw [List.headD_cons, if_neg hd0, hst]
  by_cases hover : radixVal 16 (d :: rest) > UINT64_MAX
  · rw [if_pos hover]
    dsimp only
    rw [if_neg (fun hcon => by simpa using hcon.1)]
    rw [if_neg (fun hcon => by
      have := hcon.2
      unfold UINT64_MAX at this
      omega)]
    simp [hover]
  · rw [if_neg hover]
    dsimp only
    rw [if_pos ⟨rfl, Or.inl (by norm_num)⟩]
    simp [hover]

/-- `parseExactNumeric` on a binary token whose first digit after the
`0b`/`0B` marker is nonzero: accepted unless the binary value overflows
`uint64`. -/
theorem parseExactNumeric_bin (val : String) (neg : Bool) (x d : Char) (rest : List Char)
    (h0 : val.data.filter (fun ch => ch ≠ '_') = '0' :: x :: d :: rest)
    (hx : x = 'b' ∨ x = 'B') (hd0 : d ≠ '0') (hall : (d :: rest).all (isDigitLt 2) = true) :
    (parseExactNumeric val neg = none ↔ radixVal 2 (d :: rest) > UINT64_MAX) := by
  have hg1 : ('0' :: x :: d :: rest).getD 1 '\x00' = x := rfl
  have hBp : ('0' :: x :: d :: rest).getD 1 '\x00' = 'b' ∨
      ('0' :: x :: d :: rest).getD 1 '\x00' = 'B' := by
    rw [hg1]; exact hx
  have hskip : ¬(((2 : Nat) = 0 ∨ (2 : Nat) = 16) ∧ (d :: rest).headD '\x00' = '0' ∧
      ((d :: rest).getD 1 '\x00' = 'x' ∨ (d :: rest).getD 1 '\x00' = 'X') ∧
      isDigitLt 16 ((d :: rest).getD 2 '\x00') = true) := by
    rintro ⟨hcon, -, -, -⟩
    rcases hcon with h | h <;> omega
  have hst := strtoull_noskip (d :: rest) 2 hskip
  have hbase : (if (2 : Nat) ≠ 0 then (2 : Nat)
      else if (d :: rest).headD '\x00' = '0' then 8 else 10) = 2 := by norm_num
  rw [hbase] at hst
  rw [digitsRun_all 2 _ hall] at hst
  rw [show natOfRun 2 ((d :: rest).map fun ch => (hexDigitP ch).getD 0) =
    radixVal 2 (d :: rest) from rfl] at hst
  simp only [parseExactNumeric, h0]
  rw [if_pos hBp]
  dsimp only
  rw [show ('0' :: x :: d :: rest).drop 2 = d :: rest from rfl]
  rw [List.headD_cons, if_neg hd0, hst]
  by_cases hover : radixVal 2 (d :: rest) > UINT64_MAX
  · rw [if_pos hover]
    dsimp only
    rw [if_neg (fun hcon => by simpa using hcon.1)]
    rw [if_neg (fun hcon => by
      have := hcon.2
      unfold UINT64_MAX at this
      omega)]
    simp [hover]
  · rw [if_neg hover]
    dsimp only
    rw [if_pos ⟨rfl, Or.inl (by norm_num)⟩]
    simp [hover]

/-- `parseExactNumeric` on an octal token (leading `0`, octal digits):
accepted unless the octal value overflows `uint64`. -/
theorem parseExactNumeric_oct (val : String) (neg : Bool) (cs : List Char)
    (h0 : val.data.filter (fun ch => ch ≠ '_') = '0' :: cs)
    (hcs : cs.all (isDigitLt 8) = true) :
    (parseExactNumeric val neg = none ↔ radixVal 8 ('0' :: cs) > UINT64_MAX) := by
  have hgd := all_getD 8 cs hcs 0
  have hstep : ('0' :: cs).getD 1 '\x00' = cs.getD 0 '\x00' := rfl
  have hmark : ¬(('0' :: cs).getD 1 '\x00' = 'b' ∨ ('0' :: cs).getD 1 '\x00' = 'B') ∧
      ¬(('0' :: cs).getD 1 '\x00' = 'x' ∨ ('0' :: cs).getD 1 '\x00' = 'X') := by
    rw [hstep]
    rcases hgd with hd | hd
    · rw [hd]; exact no_marker_of_nul
    · exact no_marker_of_digit10 8 (by omega) _ hd
  obtain ⟨hB, hX⟩ := hmark
  have hall : ('0' :: cs).all (isDigitLt 8) = true := by
    simp [List.all_cons, hcs]
    decide
  have hskip : ¬(((8 : Nat) = 0 ∨ (8 : Nat) = 16) ∧ ('0' :: cs).headD '\x00' = '0' ∧
      (('0' :: cs).getD 1 '\x00' = 'x' ∨ ('0' :: cs).getD 1 '\x00' = 'X') ∧
      isDigitLt 16 (('0' :: cs).getD 2 '\x00') = true) := by
    rintro ⟨hcon, -, -, -⟩
    rcases hcon with h | h <;> omega
  have hst := strtoull_noskip ('0' :: cs) 8 hskip
  have hbase : (if (8 : Nat) ≠ 0 then (8 : Nat)
      else if ('0' :: cs).headD '\x00' = '0' then 8 else 10) = 8 := by norm_num
  rw [hbase] at hst
  rw [digitsRun_all 8 _ hall] at hst
  rw [show natOfRun 8 (('0' :: cs).map fun ch => (hexDigitP ch).getD 0) =
    radixVal 8 ('0' :: cs) from rfl] at hst
  simp only [parseExactNumeric, h0]
  rw [if_neg hB, if_neg hX]
  dsimp only
  rw [List.headD_cons, if_pos rfl, hst]
  by_cases hover : radixVal 8 ('0' :: cs) > UINT64_MAX
  · rw [if_pos hover]
    dsimp only
    rw [if_neg (fun hcon => by simpa using hcon.1)]
    rw [if_neg (fun hcon => by
      have := hcon.2
      unfold UINT64_MAX at this
      omega)]
    simp [hover]
  · rw [if_neg hover]
    dsimp only
    rw [if_pos ⟨rfl, Or.inl (by norm_num)⟩]
    simp [hover]

/-- `parseExactNumeric` on a `0x`/`0X`/`0b`/`0B` token whose first digit
after the marker is `'0'`: the missing `else` re-selects octal, so the
accepted value is the maximal octal digit run of the post-marker text, and
rejection happens only when that octal run overflows `uint64`. -/
theorem parseExactNumeric_quirk (val : String) (neg : Bool) (x : Char) (rest : List Char)
    (h0 : val.data.filter (fun ch => ch ≠ '_') = '0' :: x :: '0' :: rest)
    (hx : (x = 'b' ∨ x = 'B') ∨ (x = 'x' ∨ x = 'X')) :
    (parseExactNumeric val neg = none ↔
      natOfRun 8 (digitsRun 8 ('0' :: rest)) > UINT64_MAX) := by
  have hg1 : ('0' :: x :: '0' :: rest).getD 1 '\x00' = x := rfl
  have hskip : ¬(((8 : Nat) = 0 ∨ (8 : Nat) = 16) ∧ ('0' :: rest).headD '\x00' = '0' ∧
      (('0' :: rest).getD 1 '\x00' = 'x' ∨ ('0' :: rest).getD 1 '\x00' = 'X') ∧
      isDigitLt 16 (('0' :: rest).getD 2 '\x00') = true) := by
    rintro ⟨hcon, -, -, -⟩
    rcases hcon with h | h <;> omega
  have hst := strtoull_noskip ('0' :: rest) 8 hskip
  have hbase : (if (8 : Nat) ≠ 0 then (8 : Nat)
      else if ('0' :: rest).headD '\x00' = '0' then 8 else 10) = 8 := by norm_num
  rw [hbase] at hst
  rcases hx with hbB | hxX
  · have hBp : ('0' :: x :: '0' :: rest).getD 1 '\x00' = 'b' ∨
        ('0' :: x :: '0' :: rest).getD 1 '\x00' = 'B' := by rw [hg1]; exact hbB
    simp only [parseExactNumeric, h0]
    rw [if_pos hBp]
    dsimp only
    rw [show ('0' :: x :: '0' :: rest).drop 2 = '0' :: rest from rfl]
    rw [List.headD_cons, if_pos rfl, hst]
    by_cases hover : natOfRun 8 (digitsRun 8 ('0' :: rest)) > UINT64_MAX
    · rw [if_pos hover]
      dsimp only
      rw [if_neg (fun hcon => by simpa using hcon.1)]
      rw [if_neg (fun hcon => by
        have := hcon.2
        unfold UINT64_MAX at this
        omega)]
      simp [hover]
    · rw [if_neg hover]
      dsimp only
      rw [if_pos ⟨rfl, Or.inl (by norm_num)⟩]
      simp [hover]
  · have hB : ¬(('0' :: x :: '0' :: rest).getD 1 '\x00' = 'b' ∨
        ('0' :: x :: '0' :: rest).getD 1 '\x00' = 'B') := by
      rw [hg1]
      rcases hxX with rfl | rfl <;> rintro (h | h) <;> exact absurd h (by decide)
    have hXp : ('0' :: x :: '0' :: rest).getD 1 '\x00' = 'x' ∨
        ('0' :: x :: '0' :: rest).getD 1 '\x00' = 'X' := by rw [hg1]; exact hxX
    simp only [parseExactNumeric, h0]
    rw [if_neg hB, if_pos hXp]
    dsimp only
    rw [show ('0' :: x :: '0' :: rest).drop 2 = '0' :: rest from rfl]
    rw [List.headD_cons, if_pos rfl, hst]
    by_cases hover : natOfRun 8 (digitsRun 8 ('0' :: rest)) > UINT64_MAX
    · rw [if_pos hover]
      dsimp only
      rw [if_neg (fun hcon => by simpa using hcon.1)]
      rw [if_neg (fun hcon => by
        have := hcon.2
        unfold UINT64_MAX at this
        omega)]
      simp [hover]
    · rw [if_neg hover]
      dsimp only
      rw [if_pos ⟨rfl, Or.inl (by norm_num)⟩]
      simp [hover]

/-! ## Claim theorems -/

/-- C7: for every environment, the compiled `AND` node evaluates to `False`
if either operand evaluates to `False` (regardless of the other being
`Unknown`), to `True` only if both operands are `True`, and to `Unknown`
otherwise; the `OR` node evaluates to `True` if either operand is `True`,
to `False` only if both are `False`, and to `Unknown` otherwise; and `NOT`
maps `True` to `False`, `False` to `True`, and `Unknown` to `Unknown`. -/
theorem C7_tristate_and_or_not (e1 e2 e : Expr) (env : Env) :
    eval_bool (.AndExpression e1 e2) env = andSpec (eval_bool e1 env) (eval_bool e2 env) ∧
    eval_bool (.OrExpression e1 e2) env = orSpec (eval_bool e1 env) (eval_bool e2 env) ∧
    eval_bool (.UnaryBooleanExpression .notOp e) env = notSpec (eval_bool e env) := by
  refine ⟨?_, ?_, ?_⟩
  · show valueToBool (boolToValue (andEval (valueToBool (eval e1 env))
      (valueToBool (eval e2 env)))) = _
    rw [valueToBool_boolToValue]
    show _ = andSpec (valueToBool (eval e1 env)) (valueToBool (eval e2 env))
    generalize valueToBool (eval e1 env) = bn1
    generalize valueToBool (eval e2 env) = bn2
    cases bn1 <;> cases bn2 <;> rfl
  · show valueToBool (boolToValue (orEval (valueToBool (eval e1 env))
      (valueToBool (eval e2 env)))) = _
    rw [valueToBool_boolToValue]
    show _ = orSpec (valueToBool (eval e1 env)) (valueToBool (eval e2 env))
    generalize valueToBool (eval e1 env) = bn1
    generalize valueToBool (eval e2 env) = bn2
    cases bn1 <;> cases bn2 <;> rfl
  · show valueToBool (boolToValue (notEval (valueToBool (eval e env)))) = _
    rw [valueToBool_boolToValue]
    show _ = notSpec (valueToBool (eval e env))
    generalize valueToBool (eval e env) = bn
    cases bn <;> rfl

/-- C9: for every environment, `x BETWEEN a AND b` evaluates to `Unknown`
if any of `x`, `a`, `b` evaluates to an unknown value; otherwise its result
equals that of the compiled conjunction `x >= a AND x <= b` under the
underlying value ordering. -/
theorem C9_between_conjunction (x a b : Expr) (env : Env) :
    eval_bool (.BetweenExpression x a b) env =
      (if unknown (eval x env) || unknown (eval a env) || unknown (eval b env) then
        .BN_UNKNOWN
      else
        eval_bool (.AndExpression (.ComparisonExpression .greqOp x a)
          (.ComparisonExpression .lseqOp x b)) env) := by
  show valueToBool (boolToValue
      (if unknown (eval x env) || unknown (eval a env) || unknown (eval b env) then
        .BN_UNKNOWN
      else .ofBool (valueGe (eval x env) (eval a env) && valueLe (eval x env) (eval b env)))) = _
  rw [valueToBool_boolToValue]
  cases hx : unknown (eval x env) with
  | true => simp [hx]
  | false =>
    cases ha : unknown (eval a env) with
    | true => simp [hx, ha]
    | false =>
      cases hb : unknown (eval b env) with
      | true => simp [hx, ha, hb]
      | false =>
        simp only [hx, ha, hb, Bool.or_self, Bool.or_false, Bool.false_eq_true, if_false]
        show _ = valueToBool (boolToValue (andEval
          (valueToBool (boolToValue (booleval (compOpFun .greqOp) (eval x env) (eval a env))))
          (valueToBool (boolToValue (booleval (compOpFun .lseqOp) (eval x env) (eval b env))))))
        rw [valueToBool_boolToValue, valueToBool_boolToValue, valueToBool_boolToValue]
        show BoolOrNone.ofBool (valueGe (eval x env) (eval a env) &&
            valueLe (eval x env) (eval b env)) =
          andEval (booleval valueGe (eval x env) (eval a env))
            (booleval valueLe (eval x env) (eval b env))
        unfold booleval
        rw [hx, ha, hb]
        simp only [Bool.not_false, if_pos]
        cases hg : valueGe (eval x env) (eval a env) <;>
          cases hl : valueLe (eval x env) (eval b env) <;> rfl

/-- C10: for every compiled `LIKE` node (and its `NOT LIKE` wrapping) and
every environment, if the left operand evaluates to a value that is not a
string — an integer, a double, a boolean, or the unknown value — the `LIKE`
node evaluates to `Unknown`; the compiled regex is matched only against
string-typed values. -/
theorem C10_like_non_string_unknown (e : Expr) (re : String) (env : Env) :
    (∀ i : Int, eval e env = .VInt i →
      eval_bool (.LikeExpression e re) env = .BN_UNKNOWN) ∧
    (∀ q : Rat, eval e env = .VFloat q →
      eval_bool (.LikeExpression e re) env = .BN_UNKNOWN) ∧
    (∀ b : Bool, eval e env = .VBool b →
      eval_bool (.LikeExpression e re) env = .BN_UNKNOWN) ∧
    (eval e env = .VUnknown → eval_bool (.LikeExpression e re) env = .BN_UNKNOWN) ∧
    (∀ s : String, eval e env = .VString s →
      eval_bool (.LikeExpression e re) env = .ofBool (regexMatchStr re s)) ∧
    (eval_bool (.LikeExpression e re) env = .BN_UNKNOWN →
      eval_bool (.UnaryBooleanExpression .notOp (.LikeExpression e re)) env = .BN_UNKNOWN) := by
  have hlike : eval_bool (.LikeExpression e re) env =
      (match eval e env with
       | .VString s => .ofBool (regexMatchStr re s)
       | _ => .BN_UNKNOWN) := by
    show valueToBool (boolToValue _) = _
    rw [valueToBool_boolToValue]
  refine ⟨?_, ?_, ?_, ?_, ?_, ?_⟩
  · intro i hi; rw [hlike, hi]
  · intro q hq; rw [hlike, hq]
  · intro b hb; rw [hlike, hb]
  · intro hu; rw [hlike, hu]
  · intro s hs; rw [hlike, hs]
  · intro hu
    show valueToBool (boolToValue (notEval (valueToBool (eval (.LikeExpression e re) env)))) =
      .BN_UNKNOWN
    rw [valueToBool_boolToValue]
    have : valueToBool (eval (.LikeExpression e re) env) = .BN_UNKNOWN := hu
    rw [this]
    rfl

/-- C5 (amended): for every environment, `x IN (v1..vn)` evaluates to
`True` if `x` is known and equals some known `vi`, to `Unknown` if `x` is
unknown or no `vi` equals `x` but at least one `vi` is unknown, and to
`False` otherwise; `x NOT IN (v1..vn)` evaluates to `Unknown` when `x` is
unknown, to `False` when `x` equals a known `vi`, and otherwise treats a
known type-incompatible `vi` (not both numeric) as yielding `False` rather
than `Unknown` — unless any other `vi`, earlier or later in the list, is
unknown, in which case the result is `Unknown`. -/
theorem C5_in_not_in_characterisation (x : Expr) (l : List Expr) (env : Env) :
    eval_bool (.InExpression x l) env = inSpec (eval x env) (evalList l env) ∧
    eval_bool (.NotInExpression x l) env = notInSpec (eval x env) (evalList l env) := by
  constructor
  · show valueToBool (boolToValue
      (if unknown (eval x env) then .BN_UNKNOWN
       else inLoopV (eval x env) (evalList l env) .BN_FALSE)) = _
    rw [valueToBool_boolToValue]
    unfold inSpec
    by_cases hu : unknown (eval x env) = true
    · simp [hu]
    · have hu' : unknown (eval x env) = false := by simpa using hu
      rw [if_neg hu, if_neg (by simp [hu'])]
      rw [inLoopV_char]
      by_cases hq : (evalList l env).any (fun li => knownEqB (eval x env) li) = true
      · simp [hq]
      · simp [hq]
  · show valueToBool (boolToValue
      (if unknown (eval x env) then .BN_UNKNOWN
       else notInLoopV (eval x env) (evalList l env) .BN_TRUE)) = _
    rw [valueToBool_boolToValue]
    unfold notInSpec
    by_cases hu : unknown (eval x env) = true
    · simp [hu]
    · have hu' : unknown (eval x env) = false := by simpa using hu
      rw [if_neg hu, if_neg (by simp [hu'])]
      rw [notInLoopV_char]
      by_cases hq : (evalList l env).any (fun li => knownEqB (eval x env) li) = true
      · simp [hq]
      · by_cases hw : (evalList l env).any (fun li => unknown li) = true
        · simp [hq, hw]
        · simp [hq, hw]

/-- C5 (counterexample to the claim as stated): in
`5 NOT IN (a, 's')` with `a` unknown and `'s'` a known, type-incompatible
string, no `vi` *later* than the incompatible one is unknown, yet the
result is `Unknown`, not `False`: an *earlier* unknown element also blocks
the incompatibility from forcing `False`. -/
theorem C5_not_in_earlier_unknown_counterexample :
    eval_bool (.NotInExpression (.Literal (.VInt 5))
      [.Identifier "a", .StringLiteral "s"]) emptyEnv = .BN_UNKNOWN ∧
    unknown (eval (.Literal (.VInt 5)) emptyEnv) = false ∧
    unknown (eval (.Identifier "a") emptyEnv) = true ∧
    unknown (eval (.StringLiteral "s") emptyEnv) = false ∧
    incompatB (eval (.Literal (.VInt 5)) emptyEnv) (eval (.StringLiteral "s") emptyEnv) = true ∧
    valueEq (eval (.Literal (.VInt 5)) emptyEnv) (eval (.StringLiteral "s") emptyEnv) = false ∧
    BoolOrNone.BN_UNKNOWN ≠ BoolOrNone.BN_FALSE :=
  ⟨rfl, rfl, rfl, rfl, rfl, rfl, by decide⟩

/-- C6: the LIKE-pattern compiler translates a SQL LIKE pattern into an
anchored regular expression built at parse time: unescaped `%` becomes
`.*`, unescaped `_` becomes `.`, the regex metacharacters `\\ ^ $ . * [`
receive a backslash escape, `]` is rewritten to `[]]` and `-` to `[-]`;
with a one-character `ESCAPE`, a `%`/`_` immediately following the escape
character matches literally and the escape character itself is never copied
into the output; consequently pattern `a%` matches `"abc"` and not
`"xabc"`, and pattern `a\\_b` with escape `\\` matches literal `"a_b"` but
not `"axb"`. -/
theorem C6_like_pattern_translation :
    (∀ s : String, ∃ body : List Char,
      LikeExpression.toRegex s "" = some ⟨'^' :: body ++ ['$']⟩) ∧
    LikeExpression.toRegex "a%" "" = some "^a.*$" ∧
    LikeExpression.toRegex "a_b" "" = some "^a.b$" ∧
    LikeExpression.toRegex "a\\_b" "\\" = some "^a_b$" ∧
    LikeExpression.toRegex "a\\%b" "\\" = some "^a%b$" ∧
    LikeExpression.toRegex "\\^$.*[" "" = some "^\\\\\\^\\$\\.\\*\\[$" ∧
    LikeExpression.toRegex "]" "" = some "^[]]$" ∧
    LikeExpression.toRegex "-" "" = some "^[-]$" ∧
    LikeExpression.toRegex "e%e_" "e" = some "^%_$" ∧
    regexMatchStr "^a.*$" "abc" = true ∧
    regexMatchStr "^a.*$" "xabc" = false ∧
    regexMatchStr "^a_b$" "a_b" = true ∧
    regexMatchStr "^a_b$" "axb" = false ∧
    regexMatchStr "^a%b$" "a%b" = true ∧
    regexMatchStr "^a%b$" "aXb" = false ∧
    eval_bool (.LikeExpression (.StringLiteral "abc") "^a.*$") emptyEnv = .BN_TRUE ∧
    eval_bool (.LikeExpression (.StringLiteral "xabc") "^a.*$") emptyEnv = .BN_FALSE ∧
    eval_bool (.LikeExpression (.StringLiteral "a_b") "^a_b$") emptyEnv = .BN_TRUE ∧
    eval_bool (.LikeExpression (.StringLiteral "axb") "^a_b$") emptyEnv = .BN_FALSE :=
  ⟨fun s => ⟨toRegexAux '\x00' s.data false, rfl⟩,
    rfl, rfl, rfl, rfl, rfl, rfl, rfl, rfl, rfl, rfl, rfl, rfl, rfl, rfl, rfl, rfl, rfl, rfl⟩

/-- C3: the prefixed-radix reading of exact-numeric literals works as
claimed for `0x1F`, `0b101`, `1_000` and `021`, but fails for prefixed
literals whose first digit after the marker is `0`: the source's missing
`else` re-selects octal on the stripped text, so `0x0F` compiles to the
literal `0` (octal read of `"0F"` stops at `F`) instead of `15`, and
`0b0101` compiles to `65` (octal read of `"0101"`) instead of `5`. -/
theorem C3_radix_literal_values :
    parseExactNumeric "0x1F" false = some (.Literal (.VInt 31)) ∧
    parseExactNumeric "0b101" false = some (.Literal (.VInt 5)) ∧
    parseExactNumeric "1_000" false = some (.Literal (.VInt 1000)) ∧
    parseExactNumeric "021" false = some (.Literal (.VInt 17)) ∧
    parseExactNumeric "0x0F" false = some (.Literal (.VInt 0)) ∧
    (0x0F : Int) = 15 ∧ ((15 : Int) = 0 → False) ∧
    parseExactNumeric "0b0101" false = some (.Literal (.VInt 65)) ∧
    (0b0101 : Int) = 5 ∧ ((5 : Int) = 65 → False) :=
  ⟨rfl, rfl, rfl, rfl, rfl, rfl, by decide, rfl, rfl, by decide⟩

/-- C2 (counterexample to the claim as stated): the hexadecimal literal
`0x8000000000000000` has unsigned value `INT64_MAX + 1`, exceeding the
range representable for an unnegated literal, yet compilation succeeds (the
range check is skipped for every literal with a radix marker or leading
zero) and the value wraps to `INT64_MIN`. -/
theorem C2_prefixed_literal_exceeds_int64_accepted :
    parseExactNumeric "0x8000000000000000" false = some (.Literal (.VInt (-(2 ^ 63)))) ∧
    (0x8000000000000000 : Nat) > INT64_MAX ∧
    parseExactNumeric "0x8000000000000000" false ≠ none := by
  refine ⟨rfl, by unfold INT64_MAX; norm_num, ?_⟩
  rw [show parseExactNumeric "0x8000000000000000" false =
    some (.Literal (.VInt (-(2 ^ 63)))) from rfl]
  exact Option.some_ne_none _

/-- C2 (amended): for every exact-numeric literal token (underscores
stripped, no `l`/`L` suffix), rejection with "integer literal too big"
happens exactly as follows.  A plain decimal literal is rejected iff its
value exceeds `INT64_MAX` and is not exactly `INT64_MAX + 1` under the
fused unary minus.  A literal with a radix marker or a leading zero is
never range-checked against `INT64_MAX`: an octal literal, a `0x`/`0b`
literal with nonzero first digit, is rejected only when its value in the
effective radix overflows `uint64`; and a `0x`/`0b` literal whose first
digit after the marker is `0` is read (due to the missing `else`) as the
maximal octal run of its post-marker text and rejected only when that
octal value overflows `uint64`. -/
theorem C2_exact_numeric_range_rule (val : String) (negate : Bool) :
    (∀ (c : Char) (cs : List Char),
      val.data.filter (fun ch => ch ≠ '_') = c :: cs → c ≠ '0' →
      isDigitLt 10 c = true → cs.all (isDigitLt 10) = true →
      (parseExactNumeric val negate = none ↔
        radixVal 10 (c :: cs) > INT64_MAX ∧
          ¬(negate = true ∧ radixVal 10 (c :: cs) = 2 ^ 63))) ∧
    (∀ cs : List Char,
      val.data.filter (fun ch => ch ≠ '_') = '0' :: cs → cs.all (isDigitLt 8) = true →
      (parseExactNumeric val negate = none ↔ radixVal 8 ('0' :: cs) > UINT64_MAX)) ∧
    (∀ (x d : Char) (rest : List Char),
      val.data.filter (fun ch => ch ≠ '_') = '0' :: x :: d :: rest →
      x = 'x' ∨ x = 'X' → d ≠ '0' → (d :: rest).all (isDigitLt 16) = true →
      (parseExactNumeric val negate = none ↔ radixVal 16 (d :: rest) > UINT64_MAX)) ∧
    (∀ (x d : Char) (rest : List Char),
      val.data.filter (fun ch => ch ≠ '_') = '0' :: x :: d :: rest →
      x = 'b' ∨ x = 'B' → d ≠ '0' → (d :: rest).all (isDigitLt 2) = true →
      (parseExactNumeric val negate = none ↔ radixVal 2 (d :: rest) > UINT64_MAX)) ∧
    (∀ (x : Char) (rest : List Char),
      val.data.filter (fun ch => ch ≠ '_') = '0' :: x :: '0' :: rest →
      (x = 'b' ∨ x = 'B') ∨ (x = 'x' ∨ x = 'X') →
      (parseExactNumeric val negate = none ↔
        natOfRun 8 (digitsRun 8 ('0' :: rest)) > UINT64_MAX)) := by
  refine ⟨?_, ?_, ?_, ?_, ?_⟩
  · intro c cs h0 hc0 hc hcs
    rw [parseExactNumeric_decimal val negate c cs h0 hc0 hc hcs]
    by_cases h1 : radixVal 10 (c :: cs) ≤ INT64_MAX
    · rw [if_pos h1]
      have h2 : ¬radixVal 10 (c :: cs) > INT64_MAX := by omega
      constructor
      · intro h; exact absurd h (Option.some_ne_none _)
      · rintro ⟨h, -⟩; exact absurd h h2
    · rw [if_neg h1]
      by_cases h2 : negate = true ∧ radixVal 10 (c :: cs) = 2 ^ 63
      · rw [if_pos h2]
        constructor
        · intro h; exact absurd h (Option.some_ne_none _)
        · rintro ⟨-, hn⟩; exact absurd h2 hn
      · rw [if_neg h2]
        exact ⟨fun _ => ⟨by omega, h2⟩, fun _ => rfl⟩
  · intro cs h0 hcs
    exact parseExactNumeric_oct val negate cs h0 hcs
  · intro x d rest h0 hx hd0 hall
    exact parseExactNumeric_hex val negate x d rest h0 hx hd0 hall
  · intro x d rest h0 hx hd0 hall
    exact parseExactNumeric_bin val negate x d rest h0 hx hd0 hall
  · intro x rest h0 hx
    exact parseExactNumeric_quirk val negate x rest h0 hx

/-- Witness for C2 (amended): applying the rule at concrete literals — the
decimal literal `10` and the hexadecimal literal `0xFF` are both
accepted. -/
theorem C2_exact_numeric_range_rule_witness :
    parseExactNumeric "10" false ≠ none ∧ parseExactNumeric "0xFF" false ≠ none := by
  constructor
  · intro hn
    have h := ((C2_exact_numeric_range_rule "10" false).1 '1' ['0'] rfl
      (by decide) (by decide) (by decide)).mp hn
    rw [show radixVal 10 ['1', '0'] = 10 from rfl] at h
    unfold INT64_MAX at h
    omega
  · intro hn
    have h := ((C2_exact_numeric_range_rule "0xFF" false).2.2.1 'x' 'F' ['F'] rfl
      (Or.inl rfl) (by decide) (by decide)).mp hn
    rw [show radixVal 16 ['F', 'F'] = 255 from rfl] at h
    unfold UINT64_MAX at h
    omega

/-- C4: a unary minus directly adjacent to an exact-numeric token is fused
at compile time: exactly there the decimal literal with unsigned value
`INT64_MAX + 1` is accepted and compiles to `INT64_MIN`, so the selector
`-9223372036854775808` compiles to the minimal 64-bit value, while the
same bare literal, or the minus applied to the parenthesised literal, is
not compiled to a value (the literal itself is rejected as too big). -/
theorem C4_fused_minus_int64_min :
    make_selector [⟨.T_MINUS, "-"⟩, ⟨.T_NUMERIC_EXACT, "9223372036854775808"⟩] =
      .ok ⟨some (.Literal (.VInt (-(2 ^ 63))))⟩ ∧
    make_selector [⟨.T_NUMERIC_EXACT, "9223372036854775808"⟩] = .ok ⟨none⟩ ∧
    make_selector [⟨.T_MINUS, "-"⟩, ⟨.T_LPAREN, "("⟩,
      ⟨.T_NUMERIC_EXACT, "9223372036854775808"⟩, ⟨.T_RPAREN, ")"⟩] =
      .error ("Illegal selector: ')': extra input") ∧
    (∀ (v : String) (c : Char) (cs : List Char),
      v.data.filter (fun ch => ch ≠ '_') = c :: cs → c ≠ '0' →
      isDigitLt 10 c = true → cs.all (isDigitLt 10) = true →
      radixVal 10 (c :: cs) = 2 ^ 63 →
      parseExactNumeric v true = some (.Literal (.VInt (-(2 ^ 63)))) ∧
      parseExactNumeric v false = none) := by
  refine ⟨rfl, rfl, rfl, ?_⟩
  intro v c cs h0 hc0 hc hcs hval
  constructor
  · rw [parseExactNumeric_decimal v true c cs h0 hc0 hc hcs, hval]
    rw [if_neg (by unfold INT64_MAX; omega), if_pos ⟨rfl, rfl⟩]
  · rw [parseExactNumeric_decimal v false c cs h0 hc0 hc hcs, hval]
    rw [if_neg (by unfold INT64_MAX; omega), if_neg (fun hcon => by simpa using hcon.1)]

/-- Witness for C4: the fused rule applied to the decimal token with
underscore separators. -/
theorem C4_fused_minus_int64_min_witness :
    parseExactNumeric "9_223_372_036_854_775_808" true =
      some (.Literal (.VInt (-(2 ^ 63)))) ∧
    parseExactNumeric "9_223_372_036_854_775_808" false = none :=
  C4_fused_minus_int64_min.2.2.2 "9_223_372_036_854_775_808" '9'
    "223372036854775808".data rfl (by decide) (by decide) (by decide) (by decide)

/-- C1 (code defect): a parse failure does not always raise a compile
error.  On the selector `5 +` every production returns the null marker with
`error = "expected literal or identifier"`, but `make_selector` wraps the
null root in a `ConcreteExpression` first and null-tests the wrapper
pointer — which a fresh `make_unique` never makes null — so the error is
never thrown and a partially built (null-rooted) compiled expression is
returned to the caller. -/
theorem C1_parse_failure_swallowed :
    make_selector [⟨.T_NUMERIC_EXACT, "5"⟩, ⟨.T_PLUS, "+"⟩] = .ok ⟨none⟩ ∧
    selectorExpression (parserFuel [⟨.T_NUMERIC_EXACT, "5"⟩, ⟨.T_PLUS, "+"⟩])
        ⟨⟨[⟨.T_NUMERIC_EXACT, "5"⟩, ⟨.T_PLUS, "+"⟩], 0⟩, ""⟩ =
      .ok (none, ⟨⟨[⟨.T_NUMERIC_EXACT, "5"⟩, ⟨.T_PLUS, "+"⟩], 3⟩,
        "expected literal or identifier"⟩) ∧
    (∀ c : ConcreteExpression, uniquePtrIsNull c = false) ∧
    ConcreteExpression.evalTop ⟨none⟩ emptyEnv = none :=
  ⟨rfl, rfl, fun _ => rfl, rfl⟩

/-- C8 (counterexample to the claim as stated): an `ESCAPE` argument of
length zero — the empty string literal `''` — is not of length exactly 1,
yet compilation accepts it: only strings *longer* than one character are
rejected, and the empty escape simply disables escaping. -/
theorem C8_empty_escape_accepted :
    make_selector [⟨.T_IDENTIFIER, "a"⟩, ⟨.T_LIKE, "LIKE"⟩, ⟨.T_STRING, "abc"⟩,
      ⟨.T_ESCAPE, "ESCAPE"⟩, ⟨.T_STRING, ""⟩] =
      .ok ⟨some (.LikeExpression (.Identifier "a") "^abc$")⟩ ∧
    ("" : String).length ≠ 1 :=
  ⟨rfl, by decide⟩

/-- C8 (amended): the `ESCAPE` validation rejects an argument of length
greater than one, or equal to `"%"` or `"_"`, with a thrown error carrying
the offending token's literal text and a short reason; every other
argument — including the empty string — is accepted. -/
theorem C8_escape_validation :
    (∀ (pre : List Token) (v : String),
      escapeCheck ⟨pre ++ [⟨.T_STRING, v⟩], pre.length + 1⟩ ⟨.T_STRING, v⟩ =
        (if v.length > 1 then
          .error ("Illegal selector: '" ++ v ++
            "': single character string required after ESCAPE")
        else if v = "%" ∨ v = "_" then
          .error ("Illegal selector: '" ++ v ++
            "': '%' and '_' are not allowed as ESCAPE characters")
        else .ok ())) ∧
    (∀ s v : String, LikeExpression.toRegex s v = none ↔ v.length > 1) ∧
    make_selector [⟨.T_IDENTIFIER, "a"⟩, ⟨.T_LIKE, "LIKE"⟩, ⟨.T_STRING, "abc"⟩,
      ⟨.T_ESCAPE, "ESCAPE"⟩, ⟨.T_STRING, "ab"⟩] =
      .error ("Illegal selector: 'ab': single character string required after ESCAPE") ∧
    make_selector [⟨.T_IDENTIFIER, "a"⟩, ⟨.T_LIKE, "LIKE"⟩, ⟨.T_STRING, "abc"⟩,
      ⟨.T_ESCAPE, "ESCAPE"⟩, ⟨.T_STRING, "%"⟩] =
      .error ("Illegal selector: '%': '%' and '_' are not allowed as ESCAPE characters") ∧
    make_selector [⟨.T_IDENTIFIER, "a"⟩, ⟨.T_LIKE, "LIKE"⟩, ⟨.T_STRING, "abc"⟩,
      ⟨.T_ESCAPE, "ESCAPE"⟩, ⟨.T_STRING, "_"⟩] =
      .error ("Illegal selector: '_': '%' and '_' are not allowed as ESCAPE characters") ∧
    make_selector [⟨.T_IDENTIFIER, "a"⟩, ⟨.T_LIKE, "LIKE"⟩, ⟨.T_STRING, "abc"⟩,
      ⟨.T_ESCAPE, "ESCAPE"⟩, ⟨.T_STRING, "e"⟩] =
      .ok ⟨some (.LikeExpression (.Identifier "a") "^abc$")⟩ := by
  refine ⟨?_, ?_, rfl, rfl, rfl, rfl⟩
  · intro pre v
    have hget : (pre ++ [(⟨.T_STRING, v⟩ : Token)]).get? pre.length =
        some ⟨.T_STRING, v⟩ := List.get?_concat_length pre _
    simp only [escapeCheck, throwParseError, Tokeniser.returnTokens, Tokeniser.nextToken,
      Nat.add_sub_cancel, hget]
    split_ifs with h1 h2
    · rw [String.append_assoc]
      rfl
    · rw [String.append_assoc]
      rfl
    · rfl
  · intro s v
    constructor
    · intro h
      by_contra hlen
      rw [show LikeExpression.toRegex s v =
        (if v.length > 1 then none
         else some ⟨'^' :: toRegexAux
            (if v.length = 1 then v.data.headD '\x00' else '\x00') s.data false ++ ['$']⟩)
        from rfl] at h
      rw [if_neg hlen] at h
      exact Option.noConfusion h
    · intro h
      rw [show LikeExpression.toRegex s v =
        (if v.length > 1 then none
         else some ⟨'^' :: toRegexAux
            (if v.length = 1 then v.data.headD '\x00' else '\x00') s.data false ++ ['$']⟩)
        from rfl]
      rw [if_pos h]

/-- Witness for C10: a `LIKE` node over an integer literal evaluates to
`Unknown`, and so does its `NOT LIKE` wrapping. -/
theorem C10_like_non_string_unknown_witness :
    eval_bool (.LikeExpression (.Literal (.VInt 3)) "^a$") emptyEnv = .BN_UNKNOWN ∧
    eval_bool (.UnaryBooleanExpression .notOp
      (.LikeExpression (.Literal (.VInt 3)) "^a$")) emptyEnv = .BN_UNKNOWN := by
  have h := C10_like_non_string_unknown (.Literal (.VInt 3)) "^a$" emptyEnv
  exact ⟨h.1 3 rfl, h.2.2.2.2.2 (h.1 3 rfl)⟩

end Selector
